import Mathlib

/-!
# Page swapping and copy-on-write (xv6 teaching kernel, `pageswap.c`)

A shallow embedding of `Copy on Write/pageswap.c` and `pageswap.h`, of
`swap_out` and `swap_in` of `Demand Paging/pageswap.c` (namespace
`DemandPaging`), and a model of the victim process selection the sources only
call.

* The global tables `rmap`, `ptes`, `swap_slots` become fields of `KState`.
* A `pte_t *` is a natural number (an address, `0` is the null pointer); the
  page-table words those pointers designate live in the field `mem`.
* Page-table words are `uint`: the operations that can leave 32 bits (`<<`,
  `~`, `-`) are reduced modulo `2^32`. The `int` counters `rmap` and `is_free`
  are unbounded integers (overflow of a signed `int` is undefined in C).
* `struct proc` (proc.h) is not part of the sources; the only field used here
  is `rss`, kept per process index (`get_proc_by_index(i)->rss`) as an
  unbounded integer.
* `panic` is an `Except.error` carrying the panic text.
* `walkpgdir`, `myproc`, `rcr2`, `find_victim_proc`, `find_victim_page` and
  `kalloc` are external: their results are arguments of the embedded
  functions. `kfree`, `writepage`, `readpage` and `memmove` act on page
  contents only; `lcr3` has no effect on the state.
-/

namespace PageSwap

/-! ## Constants and macros of mmu.h -/

/-- Modelled from the spec: mmu.h is not among the sources. Bytes per page
(`PGSIZE`), the unit in which `rss` is counted. -/
def PGSIZE : Nat := 4096

/-- Modelled from the spec: mmu.h is not among the sources. Present bit of a
page-table entry (`PTE_P`), bit 0 on x86. -/
def PTE_P : Nat := 0x001

/-- Modelled from the spec: mmu.h is not among the sources. Writable bit of a
page-table entry (`PTE_W`), bit 1 on x86. -/
def PTE_W : Nat := 0x002

/-- Number of values of a 32-bit `uint`. -/
def U32 : Nat := 4294967296

/-- Bitwise complement `~x` on 32 bits. -/
def not32 (x : Nat) : Nat := (U32 - 1) - x % U32

/-- Modelled from the spec: mmu.h is not among the sources. The macro
`PTE_ADDR(pte)`, the bits of an entry above its 12 flag bits: `pte & ~0xFFF`. -/
def PTE_ADDR (pte : Nat) : Nat := pte &&& not32 0xFFF

/-- Modelled from the spec: mmu.h is not among the sources. The macro
`PTE_FLAGS(pte)`, the low 12 bits of an entry: `pte & 0xFFF`. -/
def PTE_FLAGS (pte : Nat) : Nat := pte &&& 0xFFF

/-- The macro `GETIDX(addr)`, `(addr-2)/8` in `uint` arithmetic. -/
def GETIDX (addr : Nat) : Nat := ((addr % U32 + U32 - 2) % U32) / 8

/-- Constants of param.h and mmu.h that the sources use but do not define:
the process-table size, the number of swap blocks and the Swapped flag. -/
structure Config where
  NPROC : Nat
  SWAPBLOCKS : Nat
  PTE_S : Nat

/-- The macro `NSLOTS`, `SWAPBLOCKS / 8`. -/
def NSLOTS (cfg : Config) : Nat := cfg.SWAPBLOCKS / 8

/-! ## Data model (pageswap.h) -/

/-- Content of one page (its bytes). -/
abbrev Page := List Nat

/-- The record `struct swap_slot`. -/
structure swap_slot where
  page_perm : Nat
  is_free : Int
  addr : Nat
  rmap : Int
  ptes : Nat → Nat

/-- Kernel state touched by pageswap.c. -/
structure KState where
  -- int rmap[PHYSTOP>>12]
  rmap : Nat → Int
  -- pte_t * ptes[PHYSTOP>>12][NPROC]
  ptes : Nat → Nat → Nat
  -- struct swap_slot swap_slots[NSLOTS]
  swap_slots : Nat → swap_slot
  -- page-table words, by address
  mem : Nat → Nat
  -- get_proc_by_index(i)->rss
  rss : Nat → Int
  -- content of each physical frame, by frame number
  frames : Nat → Page
  -- content of the swap area, by first block of a page-sized region
  disk : Nat → Page

/-- Number of non-null entries among the first `n` entries of a backpointer row. -/
def count_ptes (row : Nat → Nat) : Nat → Nat
  | 0 => 0
  | n + 1 => count_ptes row n + (if row n ≠ 0 then 1 else 0)

/-- The loop `for(i=0; i<n; i++) row[i]=0`. -/
def clear_ptes (row : Nat → Nat) : Nat → (Nat → Nat)
  | 0 => row
  | n + 1 => Function.update (clear_ptes row n) n 0

/-! ## External collaborators acting on page contents -/

/-- Modelled from the spec: `writepage(dev, src, blk)` is not among the
sources. The content of frame `frame` is stored in the page-sized disk region
that starts at block `blk`. -/
def writepage (frame blk : Nat) (s : KState) : KState :=
  { s with disk := Function.update s.disk blk (s.frames frame) }

/-- Modelled from the spec: `readpage(dev, dst, blk)` is not among the
sources. Frame `frame` receives the content of the page-sized disk region that
starts at block `blk`. -/
def readpage (frame blk : Nat) (s : KState) : KState :=
  { s with frames := Function.update s.frames frame (s.disk blk) }

/-- Modelled from the spec: `kfree(v)` is not among the sources. The frame is
handed back to the allocator, which may overwrite it: `junk` is the content it
is left with. -/
def kfree (frame : Nat) (junk : Page) (s : KState) : KState :=
  { s with frames := Function.update s.frames frame junk }

/-- Modelled from the spec: `memmove(dst, src, PGSIZE)` is not among the
sources. Frame `dst` receives a copy of the content of frame `src`. -/
def memmove (dst src : Nat) (s : KState) : KState :=
  { s with frames := Function.update s.frames dst (s.frames src) }

/-! ## Helper functions of pageswap.c -/

/-- Function get_rmap(pa) of pageswap.c. -/
def get_rmap (pa : Nat) (s : KState) : Int := s.rmap (pa >>> 12)

/-- Function clear_rmap(pa) of pageswap.c. -/
def clear_rmap (pa : Nat) (s : KState) : KState :=
  { s with rmap := Function.update s.rmap (pa >>> 12) 0 }

/-- Function get_ptes(pa) of pageswap.c. -/
def get_ptes (pa : Nat) (s : KState) : Nat → Nat := s.ptes (pa >>> 12)

/-- Function add_pte(pa, index, pte) of pageswap.c. -/
def add_pte (pa index pte : Nat) (s : KState) : KState :=
  let s1 := { s with ptes := Function.update s.ptes (pa >>> 12)
                        (Function.update (s.ptes (pa >>> 12)) index pte) }
  let s2 := { s1 with rmap := Function.update s1.rmap (pa >>> 12) (s1.rmap (pa >>> 12) + 1) }
  { s2 with rss := Function.update s2.rss index (s2.rss index + PGSIZE) }

/-- Function sub_pte(pa, index) of pageswap.c. -/
def sub_pte (pa index : Nat) (s : KState) : KState :=
  if s.ptes (pa >>> 12) index = 0 then s
  else
    let s1 := { s with ptes := Function.update s.ptes (pa >>> 12)
                          (Function.update (s.ptes (pa >>> 12)) index 0) }
    let s2 := { s1 with rmap := Function.update s1.rmap (pa >>> 12) (s1.rmap (pa >>> 12) - 1) }
    { s2 with rss := Function.update s2.rss index (s2.rss index - PGSIZE) }

/-- Function freeslot(swapindex, x) of pageswap.c. -/
def freeslot (swapindex _x : Nat) (s : KState) : KState :=
  let sl := s.swap_slots swapindex
  let sl1 : swap_slot := { sl with rmap := sl.rmap - 1 }
  let sl2 : swap_slot := if sl1.rmap ≤ 0 then { sl1 with is_free := 1 } else sl1
  { s with swap_slots := Function.update s.swap_slots swapindex sl2 }

/-- Function addslot(swapindex, pindex, pte) of pageswap.c. -/
def addslot (swapindex pindex pte : Nat) (s : KState) : KState :=
  let sl := s.swap_slots swapindex
  let sl1 : swap_slot := { sl with ptes := Function.update sl.ptes pindex pte }
  let sl2 : swap_slot := { sl1 with rmap := sl1.rmap + 1 }
  { s with swap_slots := Function.update s.swap_slots swapindex sl2 }

/-! ## swapinit and find_free_swap_slot -/

/-- The outer loop of swapinit: slots `0..n-1` are reset and given their
disk address `i*8+2`. -/
def swapinit_loop (cfg : Config) (slots : Nat → swap_slot) : Nat → (Nat → swap_slot)
  | 0 => slots
  | n + 1 =>
    let cur := swapinit_loop cfg slots n
    Function.update cur n
      { page_perm := 0, is_free := 1, addr := (n * 8 + 2) % U32, rmap := 0,
        ptes := clear_ptes (cur n).ptes cfg.NPROC }

/-- Function swapinit() of pageswap.c. -/
def swapinit (cfg : Config) (s : KState) : KState :=
  { s with swap_slots := swapinit_loop cfg s.swap_slots (NSLOTS cfg) }

/-- The scan of find_free_swap_slot started at slot `i` with `n` slots left. -/
def find_free_from (slots : Nat → swap_slot) : Nat → Nat → Option Nat
  | 0, _ => none
  | n + 1, i => if (slots i).is_free = 1 then some i else find_free_from slots n (i + 1)

/-- Function find_free_swap_slot() of pageswap.c; the slot is returned as its
position in `swap_slots`. -/
def find_free_swap_slot (cfg : Config) (s : KState) : Except String Nat :=
  match find_free_from s.swap_slots (NSLOTS cfg) 0 with
  | some i => .ok i
  | none => .error "No free swap slot found!"

/-! ## swap_out -/

/-- One iteration `i` of the second loop of swap_out (`frame` is
`physical_page>>12`, `sidx` the position of `sslot`). -/
def swap_out_step (cfg : Config) (frame sidx index i : Nat) (s : KState) : KState :=
  let t := s.ptes frame i
  let s1 : KState :=
    if t ≠ 0 then
      let m1 := Function.update s.mem t ((index <<< 12) % U32)
      let m2 := Function.update m1 t (m1 t ||| (s.swap_slots sidx).page_perm)
      let m3 := Function.update m2 t (m2 t ||| cfg.PTE_S)
      let m4 := Function.update m3 t (m3 t &&& not32 PTE_P)
      { s with mem := m4, rss := Function.update s.rss i (s.rss i - PGSIZE) }
    else s
  let sl := s1.swap_slots sidx
  let sl1 : swap_slot := { sl with ptes := Function.update sl.ptes i (s1.ptes frame i) }
  let s2 : KState := { s1 with swap_slots := Function.update s1.swap_slots sidx sl1 }
  { s2 with ptes := Function.update s2.ptes frame (Function.update (s2.ptes frame) i 0) }

/-- The second loop of swap_out, iterations `0..n-1`. -/
def swap_out_loop (cfg : Config) (frame sidx index : Nat) : Nat → KState → KState
  | 0, s => s
  | n + 1, s => swap_out_step cfg frame sidx index n (swap_out_loop cfg frame sidx index n s)

/-- The part of swap_out between find_free_swap_slot and the second loop
(lines 67-81): the page is written to disk, the slot `sidx` is configured and
its backpointers cleared, the frame count is zeroed and the frame freed.
`junk` is what `kfree` leaves in the freed frame. -/
def swap_out_prepare (cfg : Config) (pte : Nat) (junk : Page) (sidx : Nat) (s : KState) :
    KState :=
  let physical_page := PTE_ADDR (s.mem pte)
  let sslot := s.swap_slots sidx
  let s1 := writepage (physical_page >>> 12) sslot.addr s
  let sl1 : swap_slot :=
    { sslot with is_free := 0, page_perm := PTE_FLAGS (s1.mem pte),
                 rmap := s1.rmap (physical_page >>> 12) }
  let sl2 : swap_slot := { sl1 with ptes := clear_ptes sl1.ptes cfg.NPROC }
  let s2 : KState := { s1 with swap_slots := Function.update s1.swap_slots sidx sl2 }
  let s3 : KState := { s2 with rmap := Function.update s2.rmap (physical_page >>> 12) 0 }
  kfree (physical_page >>> 12) junk s3

/-- Function swap_out() of pageswap.c. `pte` is the victim entry returned by
`find_victim_page(find_victim_proc())`, `s` the state after that selection,
`junk` what `kfree` leaves in the freed frame. -/
def swap_out (cfg : Config) (pte : Nat) (junk : Page) (s : KState) : Except String KState :=
  let physical_page := PTE_ADDR (s.mem pte)
  match find_free_swap_slot cfg s with
  | .error e => .error e
  | .ok sidx =>
    let index := GETIDX (s.swap_slots sidx).addr
    .ok (swap_out_loop cfg (physical_page >>> 12) sidx index cfg.NPROC
          (swap_out_prepare cfg pte junk sidx s))

/-! ## swap_in -/

/-- Physical address `V2P(newpage)` of the page returned by `kalloc()`:
`some pa` is a page at physical address `pa`, `none` is the null pointer,
whose `V2P` is `0 - KERNBASE` on 32 bits. -/
def V2P_newpage : Option Nat → Nat
  | some pa => pa
  | none => 0x80000000

/-- One iteration `i` of the loop of swap_in (`npa` is `V2P(newpage)`). -/
def swap_in_step (cfg : Config) (npa index i : Nat) (s : KState) : KState :=
  let rmap_pte := (s.swap_slots index).ptes i
  if rmap_pte ≠ 0 then
    let m1 := Function.update s.mem rmap_pte (PTE_ADDR npa)
    let m2 := Function.update m1 rmap_pte (m1 rmap_pte ||| (s.swap_slots index).page_perm)
    let m3 := Function.update m2 rmap_pte (m2 rmap_pte ||| PTE_P)
    let m4 := Function.update m3 rmap_pte (m3 rmap_pte &&& not32 cfg.PTE_S)
    { s with mem := m4,
             ptes := Function.update s.ptes (npa >>> 12)
                       (Function.update (s.ptes (npa >>> 12)) i rmap_pte),
             rss := Function.update s.rss i (s.rss i + PGSIZE) }
  else
    { s with ptes := Function.update s.ptes (npa >>> 12)
                       (Function.update (s.ptes (npa >>> 12)) i 0) }

/-- The loop of swap_in, iterations `0..n-1`. -/
def swap_in_loop (cfg : Config) (npa index : Nat) : Nat → KState → KState
  | 0, s => s
  | n + 1, s => swap_in_step cfg npa index n (swap_in_loop cfg npa index n s)

/-- Line 115 of swap_in: the new frame inherits the slot's reference count. -/
def swap_in_start (npa index : Nat) (s : KState) : KState :=
  { s with rmap := Function.update s.rmap (npa >>> 12) (s.swap_slots index).rmap }

/-- Lines 136-140 of swap_in: the page is read back from disk into the new
frame and the slot is released. -/
def swap_in_finish (cfg : Config) (npa index : Nat) (s : KState) : KState :=
  let s3 := readpage (npa >>> 12) (s.swap_slots index).addr s
  let sl := s3.swap_slots index
  let sl1 : swap_slot := { sl with is_free := 1, page_perm := 0, rmap := 0 }
  let sl2 : swap_slot := { sl1 with ptes := clear_ptes sl1.ptes cfg.NPROC }
  { s3 with swap_slots := Function.update s3.swap_slots index sl2 }

/-- Function swap_in() of pageswap.c. `pte` is the entry
`walkpgdir(myproc()->pgdir, rcr2(), 0)`, `kalloc` the result of `kalloc()`. -/
def swap_in (cfg : Config) (pte : Nat) (kalloc : Option Nat) (s : KState) :
    Except String KState :=
  let npa := V2P_newpage kalloc
  if s.mem pte &&& cfg.PTE_S = 0 then .error "Not a swapped out page!"
  else
    let index := s.mem pte >>> 12
    .ok (swap_in_finish cfg npa index
          (swap_in_loop cfg npa index cfg.NPROC (swap_in_start npa index s)))

/-! ## copy_on_write -/

/-- Lines 174-175 of copy_on_write: the old page is copied into the new page
at physical address `npa` and the faulting entry is pointed at it, Writable. -/
def cow_copy (npa pte : Nat) (s : KState) : KState :=
  let oldpa := PTE_ADDR (s.mem pte)
  let s1 := memmove (npa >>> 12) (oldpa >>> 12) s
  { s1 with mem := Function.update s1.mem pte ((npa ||| PTE_FLAGS (s1.mem pte)) ||| PTE_W) }

/-- Function copy_on_write() of pageswap.c. `pte` is the faulting entry
`walkpgdir(p->pgdir, rcr2(), 0)`, `pindex` is `p->index`, `kalloc` the result
of the one call of `kalloc()` the handler may make. -/
def copy_on_write (cfg : Config) (pte pindex : Nat) (kalloc : Option Nat) (s : KState) :
    Except String KState :=
  if s.mem pte &&& cfg.PTE_S ≠ 0 ∧ s.mem pte &&& PTE_P = 0 then
    swap_in cfg pte kalloc s
  else if s.mem pte &&& PTE_W = 0 then
    let oldpa := PTE_ADDR (s.mem pte)
    let count := get_rmap (PTE_ADDR (s.mem pte)) s
    if count = 1 then
      .ok { s with mem := Function.update s.mem pte (s.mem pte ||| PTE_W) }
    else
      match kalloc with
      | none => .error "Out of memory in cow"
      | some npa =>
        let s3 := add_pte npa pindex pte (cow_copy npa pte s)
        if s3.mem pte &&& PTE_P ≠ 0 then
          .ok (sub_pte oldpa pindex s3)
        else if s3.mem pte &&& cfg.PTE_S ≠ 0 then
          .ok (freeslot (PTE_ADDR (s3.mem pte) >>> 12) pindex s3)
        else .ok s3
  else .error "PAGE FAULT CANT BE HANDLED"

/-! ## Derived notions used in the statements -/

/-- Value left in `*tempptes[i]` by the four assignments of swap_out, for the
slot index `index` and the saved flags `perm`. -/
def swapped_entry (cfg : Config) (index perm : Nat) : Nat :=
  ((((index <<< 12) % U32) ||| perm) ||| cfg.PTE_S) &&& not32 PTE_P

/-- Value left in `*rmap_pte` by the four assignments of swap_in, for the new
page at physical address `npa` and the saved flags `perm`. -/
def restored_entry (cfg : Config) (npa perm : Nat) : Nat :=
  (((PTE_ADDR npa) ||| perm) ||| PTE_P) &&& not32 cfg.PTE_S

/-- The Swapped flag is a non-empty set of flag bits (below bit 12) that does
not contain the Present bit. -/
def flags_wf (cfg : Config) : Prop :=
  cfg.PTE_S ≠ 0 ∧ cfg.PTE_S < 4096 ∧ cfg.PTE_S &&& PTE_P = 0

/-- Slot addresses are the ones swapinit assigns, and slot indices fit the 20
bits a page-table entry has above its flags. -/
def slots_wf (cfg : Config) (s : KState) : Prop :=
  NSLOTS cfg ≤ 2 ^ 20 ∧ ∀ i, i < NSLOTS cfg → (s.swap_slots i).addr = i * 8 + 2

/-! ## Concrete configurations and states used as instances -/

/-- A small configuration: 4 processes, 4 swap slots, Swapped flag 0x200. -/
def cfg0 : Config := { NPROC := 4, SWAPBLOCKS := 32, PTE_S := 0x200 }

/-- A swap slot with every field zero. -/
def zero_slot : swap_slot :=
  { page_perm := 0, is_free := 0, addr := 0, rmap := 0, ptes := fun _ => 0 }

/-- The all-zero state (zero-initialised globals) after swapinit. -/
def boot_state : KState :=
  swapinit cfg0
    { rmap := fun _ => 0, ptes := fun _ _ => 0, swap_slots := fun _ => zero_slot,
      mem := fun _ => 0, rss := fun _ => 0, frames := fun _ => [], disk := fun _ => [] }

/-- Processes 0 and 1 share frame 5 read-only: their entries live at addresses
100 and 200; the entry of process 0 is `0x5005` (Present, User), the entry of
process 1 is `0x5025` (Present, User, Accessed). -/
def shared_state : KState :=
  { boot_state with
    rmap := fun f => if f = 5 then 2 else 0,
    ptes := fun f i => if f = 5 then (if i = 0 then 100 else if i = 1 then 200 else 0) else 0,
    mem := fun a => if a = 100 then 0x5005 else if a = 200 then 0x5025 else 0,
    rss := fun i => if i = 0 then 4096 else if i = 1 then 4096 else 0,
    frames := fun f => if f = 5 then [1, 2, 3] else [] }

/-- The state swap_out reaches from `shared_state` with the entry of process 0
(address 100) as victim: frame 5 is moved to slot 0. -/
def swapped_state : KState :=
  swap_out_loop cfg0 5 0 0 4 (swap_out_prepare cfg0 100 [] 0 shared_state)

/-- The state swap_in reaches from `swapped_state` on a fault of process 0
(entry at address 100) when `kalloc` returns frame 7. -/
def restored_state : KState :=
  swap_in_finish cfg0 (7 * 4096) 0
    (swap_in_loop cfg0 (7 * 4096) 0 4 (swap_in_start (7 * 4096) 0 swapped_state))

/-- Process 0 is the only process mapping frame 5, read-only (entry `0x5005`
at address 100), as after the other sharer has left. -/
def exclusive_state : KState :=
  { shared_state with
    rmap := fun f => if f = 5 then 1 else 0,
    ptes := fun f i => if f = 5 then (if i = 0 then 100 else 0) else 0 }

/-- The invariant of the slot pool that links its two notions of "free": a
slot (below NSLOTS) whose `is_free` field is 1 has reference count 0. -/
def free_inv (cfg : Config) (s : KState) : Prop :=
  ∀ i, i < NSLOTS cfg → (s.swap_slots i).is_free = 1 → (s.swap_slots i).rmap = 0

/-- The reverse-map invariant of the frame table: for every frame the reference
count is the number of non-null backpointers of its row. -/
def rmap_inv (cfg : Config) (s : KState) : Prop :=
  ∀ f : Nat, s.rmap f = (count_ptes (s.ptes f) cfg.NPROC : Int)

/-- The reverse-map invariant of the slot pool: for every slot the reference
count is the number of non-null backpointers of its row. -/
def slot_rmap_inv (cfg : Config) (s : KState) : Prop :=
  ∀ k : Nat, (s.swap_slots k).rmap = (count_ptes (s.swap_slots k).ptes cfg.NPROC : Int)

/-- Present and Swapped are mutually exclusive: no page-table word has both
flags set. -/
def excl_inv (cfg : Config) (s : KState) : Prop :=
  ∀ a : Nat, ¬ (s.mem a &&& PTE_P ≠ 0 ∧ s.mem a &&& cfg.PTE_S ≠ 0)

/-- The state `shared_state` after the write fault of process 0 on the shared
frame 5, served by duplication into frame 7. -/
def duplicated_state : KState :=
  sub_pte (5 * 4096) 0 (add_pte (7 * 4096) 0 100 (cow_copy (7 * 4096) 100 shared_state))

/-- The resident-set invariant: for every process, rss is one page times the
number of frames (below `nframes`, the size `PHYSTOP>>12` of the frame tables)
whose backpointer row holds a non-null entry for that process. -/
def rss_inv (nframes : Nat) (s : KState) : Prop :=
  ∀ i : Nat, s.rss i = (PGSIZE : Int) * (count_ptes (fun g => s.ptes g i) nframes : Int)

/-! ## Victim process selection -/

/-- Modelled from the spec: `struct proc` (proc.h) is not among the sources.
The fields victim selection reads: the process identifier, the resident set
size, and whether the table entry holds a live process. -/
structure proc where
  pid : Nat
  rss : Int
  live : Bool

/-- Modelled from the spec: the comparison of victim selection, "largest rss,
tie-break by smaller process identifier": `p` is preferred to the current
candidate `b`. -/
def victim_better (p b : proc) : Bool :=
  decide (b.rss < p.rss) || (decide (p.rss = b.rss) && decide (p.pid < b.pid))

/-- Modelled from the spec: the scan of victim selection over the process
table, `best` being the candidate found so far. -/
def victim_scan : Option proc → List proc → Option proc
  | best, [] => best
  | best, p :: rest =>
    victim_scan
      (if p.live then
        (match best with
          | none => some p
          | some b => if victim_better p b then some p else some b)
       else best) rest

/-- Modelled from the spec: `find_victim_proc()` is not among the sources
(swap_out only calls it, line 60). Scan all live processes; pick the one with
the largest rss; tie-break by smaller process identifier. -/
def find_victim_proc (ptable : List proc) : Option proc := victim_scan none ptable

/-- A process table with three live processes and one unused entry. -/
def ptable0 : List proc :=
  [{ pid := 3, rss := 8192, live := true }, { pid := 9, rss := 4096, live := true },
   { pid := 2, rss := 8192, live := true }, { pid := 1, rss := 40960, live := false }]

/-! ## The Demand Paging snapshot (`Demand Paging/pageswap.c`) -/

namespace DemandPaging

/-- Lines 60-77 of swap_out() of the Demand Paging snapshot, after
find_free_swap_slot has returned the slot `sidx`. -/
def swap_out_body (cfg : Config) (pindex pte : Nat) (junk : Page) (sidx : Nat) (s : KState) :
    KState :=
  let s1 := writepage (PTE_ADDR (s.mem pte) >>> 12) (s.swap_slots sidx).addr s
  let s2 := kfree (PTE_ADDR (s1.mem pte) >>> 12) junk s1
  let s3 : KState := { s2 with rss := Function.update s2.rss pindex (s2.rss pindex - PGSIZE) }
  let sl := s3.swap_slots sidx
  let sl1 : swap_slot := { sl with is_free := 0, page_perm := PTE_FLAGS (s3.mem pte) }
  let s4 : KState := { s3 with swap_slots := Function.update s3.swap_slots sidx sl1 }
  let index := GETIDX (s4.swap_slots sidx).addr
  let m1 := Function.update s4.mem pte ((index <<< 12) % U32)
  let m2 := Function.update m1 pte (m1 pte ||| (s4.swap_slots sidx).page_perm)
  let m3 := Function.update m2 pte (m2 pte ||| cfg.PTE_S)
  let m4 := Function.update m3 pte (m3 pte &&& not32 PTE_P)
  { s4 with mem := m4 }

/-- Function swap_out() of the Demand Paging snapshot. Its `struct swap_slot`
has only `page_perm`, `is_free` and `addr`: the other fields of the slot, and
the frame tables, are left as they are. `pindex` designates the victim process
`p` returned by `find_victim_proc()`, `pte` its victim entry; the snapshot's
`find_free_swap_slot` is the same function. -/
def swap_out (cfg : Config) (pindex pte : Nat) (junk : Page) (s : KState) :
    Except String KState :=
  match find_free_swap_slot cfg s with
  | .error e => .error e
  | .ok sidx => .ok (swap_out_body cfg pindex pte junk sidx s)

/-- Lines 89-100 of swap_in() of the Demand Paging snapshot, after the test of
the Swapped flag (`npa` is `V2P(newpage)`). -/
def swap_in_body (pindex pte npa : Nat) (s : KState) : KState :=
  let s1 : KState := { s with rss := Function.update s.rss pindex (s.rss pindex + PGSIZE) }
  let index := s1.mem pte >>> 12
  let m1 := Function.update s1.mem pte (PTE_ADDR npa)
  let m2 := Function.update m1 pte (m1 pte ||| (s1.swap_slots index).page_perm)
  let m3 := Function.update m2 pte (m2 pte ||| PTE_P)
  let s2 : KState := { s1 with mem := m3 }
  let s3 := readpage (npa >>> 12) (s2.swap_slots index).addr s2
  let sl := s3.swap_slots index
  let sl1 : swap_slot := { sl with is_free := 1, page_perm := 0 }
  { s3 with swap_slots := Function.update s3.swap_slots index sl1 }

/-- Function swap_in() of the Demand Paging snapshot. `pindex` designates the
faulting process `myproc()`, `pte` its faulting entry, `kalloc` the result of
`kalloc()`. -/
def swap_in (cfg : Config) (pindex pte : Nat) (kalloc : Option Nat) (s : KState) :
    Except String KState :=
  if s.mem pte &&& cfg.PTE_S = 0 then .error "Not a swapped out page!"
  else .ok (swap_in_body pindex pte (V2P_newpage kalloc) s)

end DemandPaging

/-- Process 0 alone maps frame 5 (entry `0x5005` at address 100); no slot is
in use. -/
def unshared_state : KState := exclusive_state

/-- The state swap_out reaches from `unshared_state`: the page of process 0 is
in slot 0, which has process 0 as its only sharer. -/
def unshared_swapped_state : KState :=
  swap_out_loop cfg0 5 0 0 4 (swap_out_prepare cfg0 100 [] 0 unshared_state)

/-! ## Lemmas on backpointer rows -/

theorem count_ptes_update_ge (row : Nat → Nat) (j v n : Nat) (h : n ≤ j) :
    count_ptes (Function.update row j v) n = count_ptes row n := by
  induction n with
  | zero => rfl
  | succ k ih =>
    have hk : k ≠ j := by omega
    simp [count_ptes, ih (by omega), Function.update_noteq hk]

theorem count_ptes_update_add (row : Nat → Nat) (j v n : Nat) (h : j < n)
    (h0 : row j = 0) (hv : v ≠ 0) :
    count_ptes (Function.update row j v) n = count_ptes row n + 1 := by
  induction n with
  | zero => omega
  | succ k ih =>
    by_cases hk : j = k
    · subst hk
      simp [count_ptes, count_ptes_update_ge row j v j (le_refl j), h0, hv]
    · have hk2 : k ≠ j := fun e => hk e.symm
      simp only [count_ptes, ih (by omega), Function.update_noteq hk2]
      omega

theorem count_ptes_update_sub (row : Nat → Nat) (j n : Nat) (h : j < n)
    (h0 : row j ≠ 0) :
    count_ptes (Function.update row j 0) n + 1 = count_ptes row n := by
  induction n with
  | zero => omega
  | succ k ih =>
    by_cases hk : j = k
    · subst hk
      simp [count_ptes, count_ptes_update_ge row j 0 j (le_refl j), h0]
    · have hk2 : k ≠ j := fun e => hk e.symm
      simp only [count_ptes, Function.update_noteq hk2]
      have := ih (by omega)
      omega

theorem clear_ptes_apply (row : Nat → Nat) (n i : Nat) :
    clear_ptes row n i = if i < n then 0 else row i := by
  induction n with
  | zero => simp [clear_ptes]
  | succ k ih =>
    by_cases hk : i = k
    · subst hk; simp [clear_ptes]
    · simp only [clear_ptes, Function.update_noteq hk, ih]
      by_cases h1 : i < k
      · simp [h1, Nat.lt_succ_of_lt h1]
      · have : ¬ i < k + 1 := by omega
        simp [h1, this]

/-! ## Bit-level lemmas on page-table entries -/

theorem testBit_of_lt (x n j : Nat) (h : x < 2 ^ n) (hj : n ≤ j) : x.testBit j = false :=
  Nat.testBit_lt_two_pow (lt_of_lt_of_le h (Nat.pow_le_pow_right (by decide) hj))

theorem testBit_not32 (x i : Nat) (hx : x < U32) :
    (not32 x).testBit i = (decide (i < 32) && !x.testBit i) := by
  have h : not32 x = 2 ^ 32 - (x + 1) := by
    unfold not32 U32 at *
    rw [Nat.mod_eq_of_lt hx]; omega
  rw [h]
  exact Nat.testBit_two_pow_sub_succ (by unfold U32 at hx; omega) i

theorem testBit_mod_U32 (x i : Nat) : (x % U32).testBit i = (decide (i < 32) && x.testBit i) := by
  have : U32 = 2 ^ 32 := by decide
  rw [this, Nat.testBit_mod_two_pow]

theorem testBit_PTE_P (i : Nat) : PTE_P.testBit i = decide (i = 0) := by
  have : PTE_P = 2 ^ 0 := by decide
  rw [this, Nat.testBit_two_pow]
  by_cases h : i = 0 <;> simp [h, eq_comm]

theorem testBit_PTE_W (i : Nat) : PTE_W.testBit i = decide (i = 1) := by
  have : PTE_W = 2 ^ 1 := by decide
  rw [this, Nat.testBit_two_pow]
  by_cases h : i = 1 <;> simp [h, eq_comm]

theorem testBit_FFF (i : Nat) : (0xFFF : Nat).testBit i = decide (i < 12) := by
  have : (0xFFF : Nat) = 2 ^ 12 - 1 := by decide
  rw [this, Nat.testBit_two_pow_sub_one]

theorem testBit_PTE_FLAGS (x i : Nat) :
    (PTE_FLAGS x).testBit i = (x.testBit i && decide (i < 12)) := by
  unfold PTE_FLAGS
  rw [Nat.testBit_and, testBit_FFF]

theorem testBit_PTE_ADDR (x i : Nat) :
    (PTE_ADDR x).testBit i = (x.testBit i && (decide (12 ≤ i) && decide (i < 32))) := by
  unfold PTE_ADDR
  rw [Nat.testBit_and, testBit_not32 _ _ (by decide), testBit_FFF]
  by_cases h1 : i < 12 <;> by_cases h2 : i < 32 <;> simp [h1, h2]
  omega

theorem testBit_frame_addr (n i : Nat) :
    (n * 4096).testBit i = (decide (12 ≤ i) && n.testBit (i - 12)) := by
  have : n * 4096 = 2 ^ 12 * n := by omega
  rw [this, Nat.testBit_mul_pow_two]

theorem testBit_zero_of_and_P (S : Nat) (h : S &&& PTE_P = 0) : S.testBit 0 = false := by
  have := congrArg (fun x => Nat.testBit x 0) h
  simp only [Nat.testBit_and, testBit_PTE_P, Nat.zero_testBit, decide_True, Bool.and_true] at this
  exact this

theorem swapped_entry_index (S idx perm : Nat) (hS : S < 4096) (hidx : idx < 2 ^ 20)
    (hperm : perm < 4096) :
    (((((idx <<< 12) % U32) ||| perm) ||| S) &&& not32 PTE_P) >>> 12 = idx := by
  apply Nat.eq_of_testBit_eq
  intro i
  have h1 : perm.testBit (12 + i) = false := testBit_of_lt perm 12 _ (by simpa using hperm) (by omega)
  have h2 : S.testBit (12 + i) = false := testBit_of_lt S 12 _ (by simpa using hS) (by omega)
  simp only [Nat.testBit_shiftRight, Nat.testBit_and, Nat.testBit_or, testBit_mod_U32,
    Nat.testBit_shiftLeft, testBit_not32 PTE_P _ (by decide), testBit_PTE_P, h1, h2]
  by_cases hi : i < 20
  · have : 12 + i < 32 := by omega
    simp [this]
  · have : idx.testBit i = false := testBit_of_lt idx 20 i hidx (by omega)
    simp [this]

theorem swapped_entry_S (S idx perm : Nat) (hS : S < 4096) (hP : S &&& PTE_P = 0) :
    (((((idx <<< 12) % U32) ||| perm) ||| S) &&& not32 PTE_P) &&& S = S := by
  apply Nat.eq_of_testBit_eq
  intro i
  have h0 := testBit_zero_of_and_P S hP
  simp only [Nat.testBit_and, Nat.testBit_or, testBit_mod_U32,
    Nat.testBit_shiftLeft, testBit_not32 PTE_P _ (by decide), testBit_PTE_P]
  by_cases hi : S.testBit i = true
  · have h12 : i < 12 := by
      by_contra hc
      have := testBit_of_lt S 12 i (by simpa using hS) (by omega)
      simp [this] at hi
    have hi0 : i ≠ 0 := by rintro rfl; simp [h0] at hi
    have : i < 32 := by omega
    simp [hi, hi0, this]
  · simp [hi]

theorem swapped_entry_P (S idx perm : Nat) :
    (((((idx <<< 12) % U32) ||| perm) ||| S) &&& not32 PTE_P) &&& PTE_P = 0 := by
  apply Nat.eq_of_testBit_eq
  intro i
  simp only [Nat.testBit_and, Nat.testBit_or, testBit_mod_U32,
    Nat.testBit_shiftLeft, testBit_not32 PTE_P _ (by decide), testBit_PTE_P]
  by_cases hi : i = 0 <;> simp [hi]

theorem restored_entry_addr (S n perm : Nat) (hS : S < 4096) (hn : n < 2 ^ 20)
    (hperm : perm < 4096) :
    PTE_ADDR ((((PTE_ADDR (n * 4096)) ||| perm) ||| PTE_P) &&& not32 S) = n * 4096 := by
  apply Nat.eq_of_testBit_eq
  intro i
  simp only [testBit_PTE_ADDR, Nat.testBit_and, Nat.testBit_or, testBit_frame_addr,
    testBit_not32 S _ (lt_trans hS (by decide)), testBit_PTE_P]
  by_cases hi : 12 ≤ i
  · have h1 := testBit_of_lt perm 12 i (by simpa using hperm) (by omega)
    have h2 := testBit_of_lt S 12 i (by simpa using hS) (by omega)
    by_cases h32 : i < 32
    · have : i ≠ 0 := by omega
      simp [hi, h1, h2, h32, this]
    · have h3 := testBit_of_lt n 20 (i - 12) hn (by omega)
      simp [hi, h1, h2, h32, h3]
  · simp [hi]

theorem restored_entry_P (S a perm : Nat) (hS : S < 4096) (hP : S &&& PTE_P = 0) :
    (((a ||| perm) ||| PTE_P) &&& not32 S) &&& PTE_P = PTE_P := by
  apply Nat.eq_of_testBit_eq
  intro i
  have h0 := testBit_zero_of_and_P S hP
  simp only [Nat.testBit_and, Nat.testBit_or,
    testBit_not32 S _ (lt_trans hS (by decide)), testBit_PTE_P]
  by_cases hi : i = 0
  · subst hi; simp [h0]
  · simp [hi]

theorem restored_entry_S (S a perm : Nat) (hS : S < 4096) :
    (((a ||| perm) ||| PTE_P) &&& not32 S) &&& S = 0 := by
  apply Nat.eq_of_testBit_eq
  intro i
  simp only [Nat.testBit_and, Nat.testBit_or,
    testBit_not32 S _ (lt_trans hS (by decide)), testBit_PTE_P]
  cases S.testBit i <;> simp

theorem restored_entry_flags (S a perm : Nat) (hperm : perm < 4096) (hS : S < 4096) :
    PTE_FLAGS ((((PTE_ADDR a) ||| perm) ||| PTE_P) &&& not32 S) =
      (perm ||| PTE_P) &&& not32 S := by
  apply Nat.eq_of_testBit_eq
  intro i
  simp only [testBit_PTE_FLAGS, testBit_PTE_ADDR, Nat.testBit_and, Nat.testBit_or,
    testBit_not32 S _ (lt_trans hS (by decide)), testBit_PTE_P]
  by_cases hi : i < 12
  · have : ¬ (12 ≤ i) := by omega
    have : i < 32 := by omega
    simp [hi, *]
  · have h1 := testBit_of_lt perm 12 i (by simpa using hperm) (by omega)
    have : i ≠ 0 := by omega
    simp [hi, h1, this]

theorem flags_roundtrip (S e : Nat) (hS : S < 4096) (hP : e &&& PTE_P ≠ 0) (hSc : e &&& S = 0) :
    (PTE_FLAGS e ||| PTE_P) &&& not32 S = PTE_FLAGS e := by
  apply Nat.eq_of_testBit_eq
  intro i
  have hb : ∀ j, (e.testBit j && S.testBit j) = false := by
    intro j
    have := congrArg (fun x => Nat.testBit x j) hSc
    simpa [Nat.testBit_and] using this
  have hp : e.testBit 0 = true := by
    by_contra hc
    apply hP
    apply Nat.eq_of_testBit_eq
    intro j
    simp only [Nat.testBit_and, testBit_PTE_P, Nat.zero_testBit]
    by_cases hj : j = 0
    · subst hj; simpa using hc
    · simp [hj]
  simp only [testBit_PTE_FLAGS, Nat.testBit_and, Nat.testBit_or,
    testBit_not32 S _ (lt_trans hS (by decide)), testBit_PTE_P]
  have := hb i
  by_cases hi : i = 0
  · subst hi; simp [hp] at this ⊢; simp [this]
  · by_cases h12 : i < 12
    · have : i < 32 := by omega
      cases he : e.testBit i <;> simp_all
    · simp [hi, h12]

/-! ## C1 -/

/-- C1: the invariant "rmap[frame] = number of non-null entries of
ptes[frame][0..NPROC)" is kept by add_pte when the process index has no
backpointer for the frame and the registered location is non-null, and is kept
by sub_pte for every frame and every process index. -/
theorem add_pte_sub_pte_preserve_rmap_inv (cfg : Config) (s : KState)
    (pa index pte : Nat) (hidx : index < cfg.NPROC) (hinv : rmap_inv cfg s) :
    (s.ptes (pa >>> 12) index = 0 → pte ≠ 0 → rmap_inv cfg (add_pte pa index pte s)) ∧
    rmap_inv cfg (sub_pte pa index s) := by
  constructor
  · intro h0 hp f
    by_cases hf : f = pa >>> 12
    · subst hf
      simp [add_pte, count_ptes_update_add _ index pte cfg.NPROC hidx h0 hp, hinv (pa >>> 12)]
    · simp [add_pte, Function.update_noteq hf, hinv f]
  · intro f
    unfold sub_pte
    by_cases h0 : s.ptes (pa >>> 12) index = 0
    · simp [h0, hinv f]
    · simp only [h0, if_false]
      by_cases hf : f = pa >>> 12
      · subst hf
        have := count_ptes_update_sub (s.ptes (pa >>> 12)) index cfg.NPROC hidx h0
        simp [hinv (pa >>> 12)]
        omega
      · simp [Function.update_noteq hf, hinv f]

theorem rmap_inv_shared_state : rmap_inv cfg0 shared_state := by
  intro f
  by_cases h : f = 5
  · subst h; decide
  · simp [shared_state, cfg0, count_ptes, h]

/-- Instance of C1 on `shared_state`: process 2 is attached to frame 7 (entry
at address 300), and process 0 is detached from frame 5. -/
theorem add_pte_sub_pte_preserve_rmap_inv_witness :
    rmap_inv cfg0 (add_pte (7 * 4096) 2 300 shared_state) ∧
    rmap_inv cfg0 (sub_pte (5 * 4096) 0 shared_state) :=
  ⟨(add_pte_sub_pte_preserve_rmap_inv cfg0 shared_state (7 * 4096) 2 300 (by decide)
      rmap_inv_shared_state).1 (by decide) (by decide),
   (add_pte_sub_pte_preserve_rmap_inv cfg0 shared_state (5 * 4096) 0 300 (by decide)
      rmap_inv_shared_state).2⟩

/-! ## The loop of swap_out -/

theorem swap_out_step_mem (cfg : Config) (f sidx index i : Nat) (s : KState) :
    (swap_out_step cfg f sidx index i s).mem =
      if s.ptes f i ≠ 0 then
        Function.update s.mem (s.ptes f i) (swapped_entry cfg index (s.swap_slots sidx).page_perm)
      else s.mem := by
  unfold swap_out_step
  by_cases h : s.ptes f i = 0
  · simp [h]
  · simp [h, swapped_entry]

theorem swap_out_step_rss (cfg : Config) (f sidx index i : Nat) (s : KState) :
    (swap_out_step cfg f sidx index i s).rss =
      if s.ptes f i ≠ 0 then Function.update s.rss i (s.rss i - PGSIZE) else s.rss := by
  unfold swap_out_step
  by_cases h : s.ptes f i = 0
  · simp [h]
  · simp [h]

theorem swap_out_step_ptes (cfg : Config) (f sidx index i : Nat) (s : KState) :
    (swap_out_step cfg f sidx index i s).ptes =
      Function.update s.ptes f (Function.update (s.ptes f) i 0) := by
  unfold swap_out_step
  by_cases h : s.ptes f i = 0
  · simp [h]
  · simp [h]

theorem swap_out_step_slots (cfg : Config) (f sidx index i : Nat) (s : KState) :
    (swap_out_step cfg f sidx index i s).swap_slots =
      Function.update s.swap_slots sidx
        { (s.swap_slots sidx) with
          ptes := Function.update (s.swap_slots sidx).ptes i (s.ptes f i) } := by
  unfold swap_out_step
  by_cases h : s.ptes f i = 0
  · simp [h]
  · simp [h]

theorem swap_out_step_other (cfg : Config) (f sidx index i : Nat) (s : KState) :
    (swap_out_step cfg f sidx index i s).rmap = s.rmap ∧
    (swap_out_step cfg f sidx index i s).frames = s.frames ∧
    (swap_out_step cfg f sidx index i s).disk = s.disk := by
  unfold swap_out_step
  by_cases h : s.ptes f i = 0
  · simp [h]
  · simp [h]

theorem swap_out_loop_other (cfg : Config) (f sidx index n : Nat) (s : KState) :
    (swap_out_loop cfg f sidx index n s).rmap = s.rmap ∧
    (swap_out_loop cfg f sidx index n s).frames = s.frames ∧
    (swap_out_loop cfg f sidx index n s).disk = s.disk := by
  induction n with
  | zero => simp [swap_out_loop]
  | succ k ih =>
    obtain ⟨h1, h2, h3⟩ := swap_out_step_other cfg f sidx index k
      (swap_out_loop cfg f sidx index k s)
    simp only [swap_out_loop, h1, h2, h3, ih, and_self]

theorem swap_out_loop_ptes (cfg : Config) (f sidx index n : Nat) (s : KState) (g i : Nat) :
    (swap_out_loop cfg f sidx index n s).ptes g i =
      if g = f ∧ i < n then 0 else s.ptes g i := by
  induction n with
  | zero => simp [swap_out_loop]
  | succ k ih =>
    simp only [swap_out_loop, swap_out_step_ptes]
    by_cases hg : g = f
    · subst hg
      by_cases hi : i = k
      · subst hi; simp
      · have : (i < k + 1) ↔ i < k := by omega
        simp [Function.update_noteq hi, ih, this]
    · simp [Function.update_noteq hg, ih, hg]

theorem swap_out_loop_ptes_self (cfg : Config) (f sidx index k : Nat) (s : KState) :
    (swap_out_loop cfg f sidx index k s).ptes f k = s.ptes f k := by
  simp [swap_out_loop_ptes]

theorem swap_out_loop_slots (cfg : Config) (f sidx index n : Nat) (s : KState) (j : Nat) :
    ((swap_out_loop cfg f sidx index n s).swap_slots j).page_perm = (s.swap_slots j).page_perm ∧
    ((swap_out_loop cfg f sidx index n s).swap_slots j).is_free = (s.swap_slots j).is_free ∧
    ((swap_out_loop cfg f sidx index n s).swap_slots j).addr = (s.swap_slots j).addr ∧
    ((swap_out_loop cfg f sidx index n s).swap_slots j).rmap = (s.swap_slots j).rmap ∧
    ∀ i, ((swap_out_loop cfg f sidx index n s).swap_slots j).ptes i =
      if j = sidx ∧ i < n then s.ptes f i else (s.swap_slots j).ptes i := by
  induction n with
  | zero => simp [swap_out_loop]
  | succ k ih =>
    obtain ⟨h1, h2, h3, h4, h5⟩ := ih
    simp only [swap_out_loop, swap_out_step_slots]
    by_cases hj : j = sidx
    · subst hj
      simp only [Function.update_same, h1, h2, h3, h4, true_and]
      intro i
      by_cases hi : i = k
      · subst hi
        simp [swap_out_loop_ptes]
      · have : (i < k + 1) ↔ i < k := by omega
        simp [Function.update_noteq hi, h5 i, this]
    · simp only [Function.update_noteq hj, h1, h2, h3, h4, true_and]
      intro i
      simp [h5 i, hj]

theorem swap_out_loop_rss (cfg : Config) (f sidx index n : Nat) (s : KState) (i : Nat) :
    (swap_out_loop cfg f sidx index n s).rss i =
      if i < n ∧ s.ptes f i ≠ 0 then s.rss i - PGSIZE else s.rss i := by
  induction n with
  | zero => simp [swap_out_loop]
  | succ k ih =>
    simp only [swap_out_loop, swap_out_step_rss, swap_out_loop_ptes_self]
    by_cases hi : i = k
    · subst hi
      by_cases hp : s.ptes f i = 0
      · simp [hp, ih]
      · simp [hp, ih]
    · have : (i < k + 1) ↔ i < k := by omega
      by_cases hp : s.ptes f k = 0
      · simp [hp, ih, this]
      · simp [hp, ih, this, Function.update_noteq hi]

theorem swap_out_loop_mem_hit (cfg : Config) (f sidx index n : Nat) (s : KState) (i : Nat)
    (hi : i < n) (hp : s.ptes f i ≠ 0) :
    (swap_out_loop cfg f sidx index n s).mem (s.ptes f i) =
      swapped_entry cfg index (s.swap_slots sidx).page_perm := by
  induction n with
  | zero => omega
  | succ k ih =>
    simp only [swap_out_loop, swap_out_step_mem, swap_out_loop_ptes_self,
      (swap_out_loop_slots cfg f sidx index k s sidx).1]
    by_cases hk : i = k
    · subst hk
      simp [hp]
    · have hlt : i < k := by omega
      by_cases hpk : s.ptes f k = 0
      · simp [hpk, ih hlt]
      · simp only [hpk, ne_eq, not_false_eq_true, if_true]
        by_cases ha : s.ptes f i = s.ptes f k
        · rw [ha]; simp
        · rw [Function.update_noteq ha, ih hlt]

theorem swap_out_loop_mem_miss (cfg : Config) (f sidx index n : Nat) (s : KState) (a : Nat)
    (ha : ∀ i, i < n → s.ptes f i ≠ a) :
    (swap_out_loop cfg f sidx index n s).mem a = s.mem a := by
  induction n with
  | zero => simp [swap_out_loop]
  | succ k ih =>
    simp only [swap_out_loop, swap_out_step_mem, swap_out_loop_ptes_self]
    have hk := ha k (by omega)
    have ih2 := ih (fun i hi => ha i (by omega))
    by_cases hpk : s.ptes f k = 0
    · simp [hpk, ih2]
    · simp only [hpk, ne_eq, not_false_eq_true, if_true]
      rw [Function.update_noteq (fun e => hk e.symm), ih2]

/-! ## find_free_swap_slot -/

theorem find_free_from_some (slots : Nat → swap_slot) (n i k : Nat) :
    find_free_from slots n i = some k ↔
      (i ≤ k ∧ k < i + n ∧ (slots k).is_free = 1 ∧
        ∀ j, i ≤ j → j < k → (slots j).is_free ≠ 1) := by
  induction n generalizing i with
  | zero =>
    simp only [find_free_from]
    constructor
    · intro h; cases h
    · rintro ⟨h1, h2, _⟩; omega
  | succ m ih =>
    simp only [find_free_from]
    by_cases hi : (slots i).is_free = 1
    · simp only [hi, if_true, Option.some.injEq]
      constructor
      · intro h; subst h
        exact ⟨le_refl _, by omega, hi, fun j h1 h2 => by omega⟩
      · rintro ⟨h1, _, _, h4⟩
        by_contra hne
        exact h4 i (le_refl _) (by omega) hi
    · simp only [hi, if_false, ih]
      constructor
      · rintro ⟨h1, h2, h3, h4⟩
        refine ⟨by omega, by omega, h3, fun j h5 h6 => ?_⟩
        by_cases hj : j = i
        · subst hj; exact hi
        · exact h4 j (by omega) h6
      · rintro ⟨h1, h2, h3, h4⟩
        have : i ≠ k := by rintro rfl; exact hi h3
        exact ⟨by omega, by omega, h3, fun j h5 h6 => h4 j (by omega) h6⟩

theorem find_free_from_none (slots : Nat → swap_slot) (n i : Nat) :
    find_free_from slots n i = none ↔ ∀ j, i ≤ j → j < i + n → (slots j).is_free ≠ 1 := by
  induction n generalizing i with
  | zero =>
    simp only [find_free_from, true_iff]
    intro j h1 h2; omega
  | succ m ih =>
    simp only [find_free_from]
    by_cases hi : (slots i).is_free = 1
    · simp only [hi, if_true]
      constructor
      · intro h; cases h
      · intro h; exact absurd hi (h i (le_refl _) (by omega))
    · simp only [hi, if_false, ih]
      constructor
      · intro h j h1 h2
        by_cases hj : j = i
        · subst hj; exact hi
        · exact h j (by omega) (by omega)
      · intro h j h1 h2
        exact h j (by omega) (by omega)

theorem find_free_swap_slot_ok (cfg : Config) (s : KState) (k : Nat) :
    find_free_swap_slot cfg s = .ok k ↔
      (k < NSLOTS cfg ∧ (s.swap_slots k).is_free = 1 ∧
        ∀ j, j < k → (s.swap_slots j).is_free ≠ 1) := by
  unfold find_free_swap_slot
  cases h : find_free_from s.swap_slots (NSLOTS cfg) 0 with
  | none =>
    simp only [false_iff, reduceCtorEq]
    rintro ⟨h1, h2, _⟩
    exact (find_free_from_none _ _ _).1 h k (Nat.zero_le _) (by omega) h2
  | some i =>
    simp only [Except.ok.injEq]
    have := find_free_from_some s.swap_slots (NSLOTS cfg) 0 k
    constructor
    · intro e; subst e
      obtain ⟨_, h2, h3, h4⟩ := this.1 h
      exact ⟨by omega, h3, fun j hj => h4 j (Nat.zero_le _) hj⟩
    · rintro ⟨h1, h2, h3⟩
      have hk := this.2 ⟨Nat.zero_le _, by omega, h2, fun j _ hj => h3 j hj⟩
      rw [h] at hk
      exact Option.some.inj hk

theorem GETIDX_slot_addr (i : Nat) (hi : i < 2 ^ 20) : GETIDX (i * 8 + 2) = i := by
  unfold GETIDX U32
  have : i < 1048576 := by simpa using hi
  omega

theorem swap_out_prepare_fields (cfg : Config) (pte : Nat) (junk : Page) (sidx : Nat)
    (s : KState) :
    (swap_out_prepare cfg pte junk sidx s).ptes = s.ptes ∧
    (swap_out_prepare cfg pte junk sidx s).mem = s.mem ∧
    (swap_out_prepare cfg pte junk sidx s).rss = s.rss ∧
    (swap_out_prepare cfg pte junk sidx s).rmap =
      Function.update s.rmap (PTE_ADDR (s.mem pte) >>> 12) 0 ∧
    ((swap_out_prepare cfg pte junk sidx s).swap_slots sidx).page_perm =
      PTE_FLAGS (s.mem pte) ∧
    ((swap_out_prepare cfg pte junk sidx s).swap_slots sidx).is_free = 0 ∧
    ((swap_out_prepare cfg pte junk sidx s).swap_slots sidx).addr = (s.swap_slots sidx).addr ∧
    ((swap_out_prepare cfg pte junk sidx s).swap_slots sidx).rmap =
      s.rmap (PTE_ADDR (s.mem pte) >>> 12) ∧
    (∀ j, j ≠ sidx → (swap_out_prepare cfg pte junk sidx s).swap_slots j = s.swap_slots j) ∧
    (swap_out_prepare cfg pte junk sidx s).disk =
      Function.update s.disk (s.swap_slots sidx).addr (s.frames (PTE_ADDR (s.mem pte) >>> 12)) ∧
    (swap_out_prepare cfg pte junk sidx s).frames =
      Function.update s.frames (PTE_ADDR (s.mem pte) >>> 12) junk := by
  refine ⟨rfl, rfl, rfl, rfl, ?_, ?_, ?_, ?_, ?_, rfl, rfl⟩
  · simp [swap_out_prepare, writepage, kfree]
  · simp [swap_out_prepare, writepage, kfree]
  · simp [swap_out_prepare, writepage, kfree]
  · simp [swap_out_prepare, writepage, kfree]
  · intro j hj
    simp [swap_out_prepare, writepage, kfree, Function.update_noteq hj]

theorem PTE_FLAGS_lt (e : Nat) : PTE_FLAGS e < 4096 := by
  unfold PTE_FLAGS
  exact Nat.and_lt_two_pow e (by decide : (0xFFF : Nat) < 2 ^ 12)

theorem swap_out_eq (cfg : Config) (s : KState) (pte : Nat) (junk : Page) (sidx : Nat)
    (hfind : find_free_swap_slot cfg s = .ok sidx) :
    swap_out cfg pte junk s =
      .ok (swap_out_loop cfg (PTE_ADDR (s.mem pte) >>> 12) sidx
            (GETIDX (s.swap_slots sidx).addr) cfg.NPROC
            (swap_out_prepare cfg pte junk sidx s)) := by
  simp only [swap_out, hfind]

/-- C2: swap-out post-condition. When find_free_swap_slot yields slot `sidx`,
swap_out succeeds; afterwards the slot is occupied, carries the victim frame's
former reference count and backpointer row, the frame has count 0 and an empty
row, and every process that had a backpointer has its entry rewritten to the
slot index above bit 12 with Swapped set and Present clear, and its rss
lowered by one page. -/
theorem swap_out_post (cfg : Config) (s : KState) (pte : Nat) (junk : Page) (sidx : Nat)
    (hwf : flags_wf cfg) (hslots : slots_wf cfg s)
    (hfind : find_free_swap_slot cfg s = .ok sidx) :
    ∃ s', swap_out cfg pte junk s = .ok s' ∧
      (s'.swap_slots sidx).is_free = 0 ∧
      (s'.swap_slots sidx).rmap = s.rmap (PTE_ADDR (s.mem pte) >>> 12) ∧
      (∀ i, i < cfg.NPROC →
        (s'.swap_slots sidx).ptes i = s.ptes (PTE_ADDR (s.mem pte) >>> 12) i) ∧
      s'.rmap (PTE_ADDR (s.mem pte) >>> 12) = 0 ∧
      (∀ i, i < cfg.NPROC → s'.ptes (PTE_ADDR (s.mem pte) >>> 12) i = 0) ∧
      (∀ i, i < cfg.NPROC → s.ptes (PTE_ADDR (s.mem pte) >>> 12) i ≠ 0 →
        s'.mem (s.ptes (PTE_ADDR (s.mem pte) >>> 12) i) >>> 12 = sidx ∧
        s'.mem (s.ptes (PTE_ADDR (s.mem pte) >>> 12) i) &&& cfg.PTE_S ≠ 0 ∧
        s'.mem (s.ptes (PTE_ADDR (s.mem pte) >>> 12) i) &&& PTE_P = 0 ∧
        s'.rss i = s.rss i - PGSIZE) := by
  obtain ⟨hS0, hS, hSP⟩ := hwf
  obtain ⟨hk, _, _⟩ := (find_free_swap_slot_ok cfg s sidx).1 hfind
  have hlt : sidx < 2 ^ 20 := lt_of_lt_of_le hk hslots.1
  have haddr := hslots.2 sidx hk
  obtain ⟨p1, p2, p3, p4, p5, p6, p7, p8, p9, p10, p11⟩ :=
    swap_out_prepare_fields cfg pte junk sidx s
  refine ⟨_, swap_out_eq cfg s pte junk sidx hfind, ?_⟩
  obtain ⟨l1, l2, l3, l4, l5⟩ := swap_out_loop_slots cfg (PTE_ADDR (s.mem pte) >>> 12) sidx
    (GETIDX (s.swap_slots sidx).addr) cfg.NPROC (swap_out_prepare cfg pte junk sidx s) sidx
  refine ⟨by rw [l2, p6], by rw [l4, p8], ?_, ?_, ?_, ?_⟩
  · intro i hi
    rw [l5 i, p1]; simp [hi]
  · rw [(swap_out_loop_other _ _ _ _ _ _).1, p4]; simp
  · intro i hi
    rw [swap_out_loop_ptes]; simp [hi]
  · intro i hi hp
    have hp2 : (swap_out_prepare cfg pte junk sidx s).ptes (PTE_ADDR (s.mem pte) >>> 12) i ≠ 0 := by
      rw [p1]; exact hp
    have hm := swap_out_loop_mem_hit cfg (PTE_ADDR (s.mem pte) >>> 12) sidx
      (GETIDX (s.swap_slots sidx).addr) cfg.NPROC (swap_out_prepare cfg pte junk sidx s) i hi hp2
    rw [p1, p5] at hm
    rw [hm, swap_out_loop_rss, p1, p3, haddr, GETIDX_slot_addr sidx hlt]
    refine ⟨swapped_entry_index _ _ _ hS hlt (PTE_FLAGS_lt _), ?_, swapped_entry_P _ _ _, ?_⟩
    · unfold swapped_entry
      rw [swapped_entry_S _ _ _ hS hSP]; exact hS0
    · simp [hi, hp]

theorem flags_wf_cfg0 : flags_wf cfg0 := by
  unfold flags_wf; decide

theorem slots_wf_shared_state : slots_wf cfg0 shared_state := by
  unfold slots_wf; decide

/-- Instance of C2 on `shared_state`: the frame 5 shared by processes 0 and 1
is swapped out to slot 0. -/
theorem swap_out_post_witness :
    find_free_swap_slot cfg0 shared_state = .ok 0 ∧
    ∃ s', swap_out cfg0 100 [] shared_state = .ok s' ∧
      (s'.swap_slots 0).is_free = 0 ∧ (s'.swap_slots 0).rmap = 2 ∧
      s'.rmap 5 = 0 ∧ s'.mem 200 >>> 12 = 0 ∧ s'.mem 200 &&& cfg0.PTE_S ≠ 0 ∧
      s'.mem 200 &&& PTE_P = 0 ∧ s'.rss 1 = 0 := by
  refine ⟨rfl, ?_⟩
  obtain ⟨s', h1, h2, h3, _, h5, _, h7⟩ :=
    swap_out_post cfg0 shared_state 100 [] 0 flags_wf_cfg0 slots_wf_shared_state rfl
  obtain ⟨h8, h9, h10, h11⟩ := h7 1 (by decide) (by decide)
  exact ⟨s', h1, h2, h3, h5, h8, h9, h10, h11⟩

/-! ## The loop of swap_in -/

theorem swap_in_step_mem (cfg : Config) (npa index i : Nat) (s : KState) :
    (swap_in_step cfg npa index i s).mem =
      if (s.swap_slots index).ptes i ≠ 0 then
        Function.update s.mem ((s.swap_slots index).ptes i)
          (restored_entry cfg npa (s.swap_slots index).page_perm)
      else s.mem := by
  unfold swap_in_step
  by_cases h : (s.swap_slots index).ptes i = 0
  · simp [h]
  · simp [h, restored_entry]

theorem swap_in_step_rss (cfg : Config) (npa index i : Nat) (s : KState) :
    (swap_in_step cfg npa index i s).rss =
      if (s.swap_slots index).ptes i ≠ 0 then Function.update s.rss i (s.rss i + PGSIZE)
      else s.rss := by
  unfold swap_in_step
  by_cases h : (s.swap_slots index).ptes i = 0
  · simp [h]
  · simp [h]

theorem swap_in_step_ptes (cfg : Config) (npa index i : Nat) (s : KState) :
    (swap_in_step cfg npa index i s).ptes =
      Function.update s.ptes (npa >>> 12)
        (Function.update (s.ptes (npa >>> 12)) i ((s.swap_slots index).ptes i)) := by
  unfold swap_in_step
  by_cases h : (s.swap_slots index).ptes i = 0
  · simp [h]
  · simp [h]

theorem swap_in_step_other (cfg : Config) (npa index i : Nat) (s : KState) :
    (swap_in_step cfg npa index i s).rmap = s.rmap ∧
    (swap_in_step cfg npa index i s).frames = s.frames ∧
    (swap_in_step cfg npa index i s).disk = s.disk ∧
    (swap_in_step cfg npa index i s).swap_slots = s.swap_slots := by
  unfold swap_in_step
  by_cases h : (s.swap_slots index).ptes i = 0
  · simp [h]
  · simp [h]

theorem swap_in_loop_other (cfg : Config) (npa index n : Nat) (s : KState) :
    (swap_in_loop cfg npa index n s).rmap = s.rmap ∧
    (swap_in_loop cfg npa index n s).frames = s.frames ∧
    (swap_in_loop cfg npa index n s).disk = s.disk ∧
    (swap_in_loop cfg npa index n s).swap_slots = s.swap_slots := by
  induction n with
  | zero => simp [swap_in_loop]
  | succ k ih =>
    obtain ⟨h1, h2, h3, h4⟩ := swap_in_step_other cfg npa index k (swap_in_loop cfg npa index k s)
    simp only [swap_in_loop, h1, h2, h3, h4, ih, and_self]

theorem swap_in_loop_ptes (cfg : Config) (npa index n : Nat) (s : KState) (g i : Nat) :
    (swap_in_loop cfg npa index n s).ptes g i =
      if g = npa >>> 12 ∧ i < n then (s.swap_slots index).ptes i else s.ptes g i := by
  induction n with
  | zero => simp [swap_in_loop]
  | succ k ih =>
    simp only [swap_in_loop, swap_in_step_ptes, (swap_in_loop_other cfg npa index k s).2.2.2]
    by_cases hg : g = npa >>> 12
    · subst hg
      by_cases hi : i = k
      · subst hi; simp
      · have : (i < k + 1) ↔ i < k := by omega
        simp [Function.update_noteq hi, ih, this]
    · simp [Function.update_noteq hg, ih, hg]

theorem swap_in_loop_rss (cfg : Config) (npa index n : Nat) (s : KState) (i : Nat) :
    (swap_in_loop cfg npa index n s).rss i =
      if i < n ∧ (s.swap_slots index).ptes i ≠ 0 then s.rss i + PGSIZE else s.rss i := by
  induction n with
  | zero => simp [swap_in_loop]
  | succ k ih =>
    simp only [swap_in_loop, swap_in_step_rss, (swap_in_loop_other cfg npa index k s).2.2.2]
    by_cases hi : i = k
    · subst hi
      by_cases hp : (s.swap_slots index).ptes i = 0
      · simp [hp, ih]
      · simp [hp, ih]
    · have : (i < k + 1) ↔ i < k := by omega
      by_cases hp : (s.swap_slots index).ptes k = 0
      · simp [hp, ih, this]
      · simp [hp, ih, this, Function.update_noteq hi]

theorem swap_in_loop_mem_hit (cfg : Config) (npa index n : Nat) (s : KState) (i : Nat)
    (hi : i < n) (hp : (s.swap_slots index).ptes i ≠ 0) :
    (swap_in_loop cfg npa index n s).mem ((s.swap_slots index).ptes i) =
      restored_entry cfg npa (s.swap_slots index).page_perm := by
  induction n with
  | zero => omega
  | succ k ih =>
    simp only [swap_in_loop, swap_in_step_mem, (swap_in_loop_other cfg npa index k s).2.2.2]
    by_cases hk : i = k
    · subst hk
      simp [hp]
    · have hlt : i < k := by omega
      by_cases hpk : (s.swap_slots index).ptes k = 0
      · simp [hpk, ih hlt]
      · simp only [hpk, ne_eq, not_false_eq_true, if_true]
        by_cases ha : (s.swap_slots index).ptes i = (s.swap_slots index).ptes k
        · rw [ha]; simp
        · rw [Function.update_noteq ha, ih hlt]

theorem swap_in_loop_mem_miss (cfg : Config) (npa index n : Nat) (s : KState) (a : Nat)
    (ha : ∀ i, i < n → (s.swap_slots index).ptes i ≠ a) :
    (swap_in_loop cfg npa index n s).mem a = s.mem a := by
  induction n with
  | zero => simp [swap_in_loop]
  | succ k ih =>
    simp only [swap_in_loop, swap_in_step_mem, (swap_in_loop_other cfg npa index k s).2.2.2]
    have hk := ha k (by omega)
    have ih2 := ih (fun i hi => ha i (by omega))
    by_cases hpk : (s.swap_slots index).ptes k = 0
    · simp [hpk, ih2]
    · simp only [hpk, ne_eq, not_false_eq_true, if_true]
      rw [Function.update_noteq (fun e => hk e.symm), ih2]

theorem swap_in_ok (cfg : Config) (s : KState) (pte : Nat) (kalloc : Option Nat)
    (hS : s.mem pte &&& cfg.PTE_S ≠ 0) :
    swap_in cfg pte kalloc s =
      .ok (swap_in_finish cfg (V2P_newpage kalloc) (s.mem pte >>> 12)
            (swap_in_loop cfg (V2P_newpage kalloc) (s.mem pte >>> 12) cfg.NPROC
              (swap_in_start (V2P_newpage kalloc) (s.mem pte >>> 12) s))) := by
  simp only [swap_in, hS, if_false]

theorem swap_in_eq (cfg : Config) (s : KState) (pte : Nat) (kalloc : Option Nat)
    (hS : s.mem pte &&& cfg.PTE_S ≠ 0) :
    ∃ s', swap_in cfg pte kalloc s = .ok s' ∧
      s'.rmap = Function.update s.rmap (V2P_newpage kalloc >>> 12)
                  (s.swap_slots (s.mem pte >>> 12)).rmap ∧
      s'.disk = s.disk ∧
      s'.frames = Function.update s.frames (V2P_newpage kalloc >>> 12)
                    (s.disk (s.swap_slots (s.mem pte >>> 12)).addr) ∧
      (∀ j, j ≠ s.mem pte >>> 12 → s'.swap_slots j = s.swap_slots j) ∧
      (s'.swap_slots (s.mem pte >>> 12)).is_free = 1 ∧
      (s'.swap_slots (s.mem pte >>> 12)).page_perm = 0 ∧
      (s'.swap_slots (s.mem pte >>> 12)).rmap = 0 ∧
      (s'.swap_slots (s.mem pte >>> 12)).addr = (s.swap_slots (s.mem pte >>> 12)).addr ∧
      (∀ i, (s'.swap_slots (s.mem pte >>> 12)).ptes i =
        if i < cfg.NPROC then 0 else (s.swap_slots (s.mem pte >>> 12)).ptes i) ∧
      (∀ g i, s'.ptes g i =
        if g = V2P_newpage kalloc >>> 12 ∧ i < cfg.NPROC
        then (s.swap_slots (s.mem pte >>> 12)).ptes i else s.ptes g i) ∧
      (∀ i, s'.rss i =
        if i < cfg.NPROC ∧ (s.swap_slots (s.mem pte >>> 12)).ptes i ≠ 0
        then s.rss i + PGSIZE else s.rss i) ∧
      (∀ i, i < cfg.NPROC → (s.swap_slots (s.mem pte >>> 12)).ptes i ≠ 0 →
        s'.mem ((s.swap_slots (s.mem pte >>> 12)).ptes i) =
          restored_entry cfg (V2P_newpage kalloc)
            (s.swap_slots (s.mem pte >>> 12)).page_perm) ∧
      (∀ a, (∀ i, i < cfg.NPROC → (s.swap_slots (s.mem pte >>> 12)).ptes i ≠ a) →
        s'.mem a = s.mem a) := by
  refine ⟨_, swap_in_ok cfg s pte kalloc hS, ?_⟩
  generalize hs1 : swap_in_start (V2P_newpage kalloc) (s.mem pte >>> 12) s = s1
  have e1 : s1.swap_slots = s.swap_slots := by rw [← hs1]; rfl
  have e2 : s1.ptes = s.ptes := by rw [← hs1]; rfl
  have e3 : s1.rss = s.rss := by rw [← hs1]; rfl
  have e4 : s1.mem = s.mem := by rw [← hs1]; rfl
  have e5 : s1.disk = s.disk := by rw [← hs1]; rfl
  have e6 : s1.frames = s.frames := by rw [← hs1]; rfl
  have e7 : s1.rmap = Function.update s.rmap (V2P_newpage kalloc >>> 12)
      (s.swap_slots (s.mem pte >>> 12)).rmap := by rw [← hs1]; rfl
  obtain ⟨o1, o2, o3, o4⟩ :=
    swap_in_loop_other cfg (V2P_newpage kalloc) (s.mem pte >>> 12) cfg.NPROC s1
  refine ⟨?_, ?_, ?_, ?_, ?_, ?_, ?_, ?_, ?_, ?_, ?_, ?_, ?_⟩
  · simp only [swap_in_finish, readpage, o1, e7]
  · simp only [swap_in_finish, readpage, o3, e5]
  · simp only [swap_in_finish, readpage, o2, o3, o4, e5, e6, e1]
  · intro j hj
    simp only [swap_in_finish, readpage, Function.update_noteq hj, o4, e1]
  · simp [swap_in_finish, readpage]
  · simp [swap_in_finish, readpage]
  · simp [swap_in_finish, readpage]
  · simp [swap_in_finish, readpage, o4, e1]
  · intro i
    simp [swap_in_finish, readpage, o4, e1, clear_ptes_apply]
  · intro g i
    simp only [swap_in_finish, readpage, swap_in_loop_ptes, e1, e2]
  · intro i
    simp only [swap_in_finish, readpage, swap_in_loop_rss, e1, e3]
  · intro i hi hp
    have := swap_in_loop_mem_hit cfg (V2P_newpage kalloc) (s.mem pte >>> 12) cfg.NPROC s1 i hi
      (by rw [e1]; exact hp)
    rw [e1] at this
    simpa only [swap_in_finish, readpage] using this
  · intro a ha
    have := swap_in_loop_mem_miss cfg (V2P_newpage kalloc) (s.mem pte >>> 12) cfg.NPROC s1 a
      (by rw [e1]; exact ha)
    rw [e4] at this
    simpa only [swap_in_finish, readpage] using this

/-! ## C3 -/

theorem frame_shift (n : Nat) : (n * 4096) >>> 12 = n := by
  rw [Nat.shiftRight_eq_div_pow]
  have : (2 : Nat) ^ 12 = 4096 := by decide
  rw [this]
  omega

/-- C3: swap-in post-condition. When the faulting entry has Swapped set and
encodes slot `sidx`, and the allocator returns frame `n`, swap_in succeeds;
afterwards every process with a backpointer in the slot has its entry pointing
at frame `n` with the saved permission bits, Present set and Swapped clear, and
its rss raised by one page; frame `n` carries the slot's former reference count
and backpointer row; the slot is fully released. -/
theorem swap_in_post (cfg : Config) (s : KState) (pte sidx n : Nat)
    (hwf : flags_wf cfg) (hS : s.mem pte &&& cfg.PTE_S ≠ 0)
    (hidx : s.mem pte >>> 12 = sidx)
    (hperm : (s.swap_slots sidx).page_perm < 4096) (hn : n < 2 ^ 20) :
    ∃ s', swap_in cfg pte (some (n * 4096)) s = .ok s' ∧
      (∀ i, i < cfg.NPROC → (s.swap_slots sidx).ptes i ≠ 0 →
        PTE_ADDR (s'.mem ((s.swap_slots sidx).ptes i)) >>> 12 = n ∧
        PTE_FLAGS (s'.mem ((s.swap_slots sidx).ptes i)) =
          ((s.swap_slots sidx).page_perm ||| PTE_P) &&& not32 cfg.PTE_S ∧
        s'.mem ((s.swap_slots sidx).ptes i) &&& PTE_P ≠ 0 ∧
        s'.mem ((s.swap_slots sidx).ptes i) &&& cfg.PTE_S = 0 ∧
        s'.rss i = s.rss i + PGSIZE) ∧
      s'.rmap n = (s.swap_slots sidx).rmap ∧
      (∀ i, i < cfg.NPROC → s'.ptes n i = (s.swap_slots sidx).ptes i) ∧
      (s'.swap_slots sidx).is_free = 1 ∧
      (s'.swap_slots sidx).page_perm = 0 ∧
      (s'.swap_slots sidx).rmap = 0 ∧
      (∀ i, i < cfg.NPROC → (s'.swap_slots sidx).ptes i = 0) := by
  obtain ⟨_, hSlt, hSP⟩ := hwf
  obtain ⟨s', h0, h1, _, _, _, h5, h6, h7, _, h9, h10, h11, h12, _⟩ :=
    swap_in_eq cfg s pte (some (n * 4096)) hS
  subst hidx
  simp only [V2P_newpage, frame_shift] at h1 h10 h12
  refine ⟨s', h0, ?_, ?_, ?_, h5, h6, h7, ?_⟩
  · intro i hi hp
    rw [h12 i hi hp, h11 i]
    unfold restored_entry
    refine ⟨?_, restored_entry_flags _ _ _ hperm hSlt, ?_, restored_entry_S _ _ _ hSlt, ?_⟩
    · rw [restored_entry_addr _ _ _ hSlt hn hperm, frame_shift]
    · rw [restored_entry_P _ _ _ hSlt hSP]; decide
    · simp [hi, hp]
  · rw [h1]; simp
  · intro i hi
    rw [h10]; simp [hi]
  · intro i hi
    rw [h9]; simp [hi]

/-- Instance of C3 on `swapped_state`: process 0 faults on its swapped entry
and the page comes back in frame 7. -/
theorem swap_in_post_witness :
    ∃ s', swap_in cfg0 100 (some (7 * 4096)) swapped_state = .ok s' ∧
      PTE_ADDR (s'.mem 200) >>> 12 = 7 ∧ s'.mem 200 &&& PTE_P ≠ 0 ∧
      s'.mem 200 &&& cfg0.PTE_S = 0 ∧ s'.rss 1 = 4096 ∧ s'.rmap 7 = 2 ∧
      (s'.swap_slots 0).is_free = 1 ∧ (s'.swap_slots 0).rmap = 0 := by
  obtain ⟨s', h0, h1, h2, _, h4, _, h6, _⟩ :=
    swap_in_post cfg0 swapped_state 100 0 7 flags_wf_cfg0 (by decide) (by decide) (by decide)
      (by decide)
  obtain ⟨a1, _, a3, a4, a5⟩ := h1 1 (by decide) (by decide)
  exact ⟨s', h0, a1, a3, a4, a5, h2, h4, h6⟩

/-! ## Complete description of a successful swap_out -/

theorem swap_out_facts (cfg : Config) (s : KState) (pte : Nat) (junk : Page) (sidx : Nat)
    (hfind : find_free_swap_slot cfg s = .ok sidx) :
    ∃ s', swap_out cfg pte junk s = .ok s' ∧
      s'.rmap = Function.update s.rmap (PTE_ADDR (s.mem pte) >>> 12) 0 ∧
      s'.disk = Function.update s.disk (s.swap_slots sidx).addr
                  (s.frames (PTE_ADDR (s.mem pte) >>> 12)) ∧
      s'.frames = Function.update s.frames (PTE_ADDR (s.mem pte) >>> 12) junk ∧
      (∀ j, j ≠ sidx → s'.swap_slots j = s.swap_slots j) ∧
      (s'.swap_slots sidx).is_free = 0 ∧
      (s'.swap_slots sidx).page_perm = PTE_FLAGS (s.mem pte) ∧
      (s'.swap_slots sidx).rmap = s.rmap (PTE_ADDR (s.mem pte) >>> 12) ∧
      (s'.swap_slots sidx).addr = (s.swap_slots sidx).addr ∧
      (∀ i, (s'.swap_slots sidx).ptes i =
        if i < cfg.NPROC then s.ptes (PTE_ADDR (s.mem pte) >>> 12) i
        else (s.swap_slots sidx).ptes i) ∧
      (∀ g i, s'.ptes g i =
        if g = PTE_ADDR (s.mem pte) >>> 12 ∧ i < cfg.NPROC then 0 else s.ptes g i) ∧
      (∀ i, s'.rss i =
        if i < cfg.NPROC ∧ s.ptes (PTE_ADDR (s.mem pte) >>> 12) i ≠ 0
        then s.rss i - PGSIZE else s.rss i) ∧
      (∀ i, i < cfg.NPROC → s.ptes (PTE_ADDR (s.mem pte) >>> 12) i ≠ 0 →
        s'.mem (s.ptes (PTE_ADDR (s.mem pte) >>> 12) i) =
          swapped_entry cfg (GETIDX (s.swap_slots sidx).addr) (PTE_FLAGS (s.mem pte))) ∧
      (∀ a, (∀ i, i < cfg.NPROC → s.ptes (PTE_ADDR (s.mem pte) >>> 12) i ≠ a) →
        s'.mem a = s.mem a) := by
  obtain ⟨p1, p2, p3, p4, p5, p6, p7, p8, p9, p10, p11⟩ :=
    swap_out_prepare_fields cfg pte junk sidx s
  refine ⟨_, swap_out_eq cfg s pte junk sidx hfind, ?_⟩
  obtain ⟨l1, l2, l3, l4, l5⟩ := swap_out_loop_slots cfg (PTE_ADDR (s.mem pte) >>> 12) sidx
    (GETIDX (s.swap_slots sidx).addr) cfg.NPROC (swap_out_prepare cfg pte junk sidx s) sidx
  obtain ⟨o1, o2, o3⟩ := swap_out_loop_other cfg (PTE_ADDR (s.mem pte) >>> 12) sidx
    (GETIDX (s.swap_slots sidx).addr) cfg.NPROC (swap_out_prepare cfg pte junk sidx s)
  refine ⟨by rw [o1, p4], by rw [o3, p10], by rw [o2, p11], ?_, by rw [l2, p6], by rw [l1, p5],
    by rw [l4, p8], by rw [l3, p7], ?_, ?_, ?_, ?_, ?_⟩
  · intro j hj
    obtain ⟨m1, m2, m3, m4, m5⟩ := swap_out_loop_slots cfg (PTE_ADDR (s.mem pte) >>> 12) sidx
      (GETIDX (s.swap_slots sidx).addr) cfg.NPROC (swap_out_prepare cfg pte junk sidx s) j
    have hx : ∀ a b : swap_slot, a.page_perm = b.page_perm → a.is_free = b.is_free →
        a.addr = b.addr → a.rmap = b.rmap → a.ptes = b.ptes → a = b := by
      intro a b h1 h2 h3 h4 h5
      cases a; cases b; simp_all
    rw [← p9 j hj]
    refine hx _ _ m1 m2 m3 m4 ?_
    funext i
    rw [m5 i]; simp [hj]
  · intro i
    rw [l5 i, p1]
    by_cases hi : i < cfg.NPROC
    · simp [hi]
    · simp [hi, swap_out_prepare, writepage, kfree, clear_ptes_apply]
  · intro g i
    rw [swap_out_loop_ptes, p1]
  · intro i
    rw [swap_out_loop_rss, p1, p3]
  · intro i hi hp
    have hm := swap_out_loop_mem_hit cfg (PTE_ADDR (s.mem pte) >>> 12) sidx
      (GETIDX (s.swap_slots sidx).addr) cfg.NPROC (swap_out_prepare cfg pte junk sidx s) i hi
      (by rw [p1]; exact hp)
    rw [p1, p5] at hm
    exact hm
  · intro a ha
    have hm := swap_out_loop_mem_miss cfg (PTE_ADDR (s.mem pte) >>> 12) sidx
      (GETIDX (s.swap_slots sidx).addr) cfg.NPROC (swap_out_prepare cfg pte junk sidx s) a
      (by rw [p1]; exact ha)
    rw [p2] at hm
    exact hm

/-! ## The well-formedness of slots is an invariant -/

theorem swapinit_loop_apply (cfg : Config) (slots : Nat → swap_slot) (n i : Nat) (hi : i < n) :
    (swapinit_loop cfg slots n i).addr = (i * 8 + 2) % U32 ∧
    (swapinit_loop cfg slots n i).is_free = 1 ∧
    (swapinit_loop cfg slots n i).page_perm = 0 ∧
    (swapinit_loop cfg slots n i).rmap = 0 := by
  induction n with
  | zero => omega
  | succ k ih =>
    by_cases hk : i = k
    · subst hk
      simp [swapinit_loop]
    · simp only [swapinit_loop, Function.update_noteq hk]
      exact ih (by omega)

theorem slots_wf_swapinit (cfg : Config) (s : KState) (h : NSLOTS cfg ≤ 2 ^ 20) :
    slots_wf cfg (swapinit cfg s) := by
  refine ⟨h, fun i hi => ?_⟩
  have hlt : i < 1048576 := by
    have : i < 2 ^ 20 := lt_of_lt_of_le hi h
    simpa using this
  rw [show (swapinit cfg s).swap_slots = swapinit_loop cfg s.swap_slots (NSLOTS cfg) from rfl,
    (swapinit_loop_apply cfg s.swap_slots (NSLOTS cfg) i hi).1]
  unfold U32
  omega

theorem slots_wf_swap_out (cfg : Config) (s s' : KState) (pte : Nat) (junk : Page)
    (h : slots_wf cfg s) (ho : swap_out cfg pte junk s = .ok s') : slots_wf cfg s' := by
  cases hfind : find_free_swap_slot cfg s with
  | error e => simp [swap_out, hfind] at ho
  | ok sidx =>
    obtain ⟨s1, h0, _, _, _, f4, _, _, _, f8, _⟩ := swap_out_facts cfg s pte junk sidx hfind
    have hs : s' = s1 := Except.ok.inj (ho.symm.trans h0)
    subst hs
    refine ⟨h.1, fun i hi => ?_⟩
    by_cases hx : i = sidx
    · subst hx; rw [f8]; exact h.2 i hi
    · rw [f4 i hx]; exact h.2 i hi

theorem slots_wf_swap_in (cfg : Config) (s s' : KState) (pte : Nat) (kalloc : Option Nat)
    (h : slots_wf cfg s) (ho : swap_in cfg pte kalloc s = .ok s') : slots_wf cfg s' := by
  have hS : s.mem pte &&& cfg.PTE_S ≠ 0 := by
    intro h0
    simp [swap_in, h0] at ho
  obtain ⟨s2, g0, _, _, _, g4, _, _, _, g8, _⟩ := swap_in_eq cfg s pte kalloc hS
  have hs : s' = s2 := Except.ok.inj (ho.symm.trans g0)
  subst hs
  refine ⟨h.1, fun i hi => ?_⟩
  by_cases hx : i = s.mem pte >>> 12
  · subst hx; rw [g8]; exact h.2 _ hi
  · rw [g4 i hx]; exact h.2 i hi

theorem swap_out_page_perm_lt (cfg : Config) (s s' : KState) (pte : Nat) (junk : Page)
    (sidx : Nat) (hfind : find_free_swap_slot cfg s = .ok sidx)
    (ho : swap_out cfg pte junk s = .ok s') : (s'.swap_slots sidx).page_perm < 4096 := by
  obtain ⟨s1, h0, _, _, _, _, _, f6, _⟩ := swap_out_facts cfg s pte junk sidx hfind
  have hs : s' = s1 := Except.ok.inj (ho.symm.trans h0)
  subst hs
  rw [f6]; exact PTE_FLAGS_lt _

/-! ## C4 -/

/-- C4 as stated fails: in `shared_state` the entry of process 1 (address 200)
has flag bits `0x25` (Present, User, Accessed); after swap_out with the entry
of process 0 as victim and the immediately following swap_in, its flag bits
are `0x5`, the victim's. -/
theorem swap_roundtrip_flags_counterexample :
    swap_out cfg0 100 [] shared_state = .ok swapped_state ∧
    swap_in cfg0 100 (some (7 * 4096)) swapped_state = .ok restored_state ∧
    shared_state.ptes 5 1 = 200 ∧
    PTE_FLAGS (shared_state.mem 200) = 0x25 ∧
    PTE_FLAGS (restored_state.mem 200) = 0x5 ∧
    PTE_FLAGS (restored_state.mem 200) ≠ PTE_FLAGS (shared_state.mem 200) := by
  refine ⟨rfl, rfl, rfl, ?_, ?_, ?_⟩ <;> decide

/-- C4, amended: after swap_out and the immediately following swap_in (on the
swapped entry of any sharer `j`), the entry of every previously-sharing process
has the flag bits saved from the victim entry, with Present set and Swapped
clear; hence a sharer whose flag bits equalled those of a Present, not Swapped
victim entry gets its own flag bits back. -/
theorem swap_roundtrip_flags (cfg : Config) (s : KState) (vpte : Nat) (junk : Page)
    (sidx j : Nat) (kalloc : Option Nat)
    (hwf : flags_wf cfg) (hslots : slots_wf cfg s)
    (hfind : find_free_swap_slot cfg s = .ok sidx)
    (hj : j < cfg.NPROC) (hpj : s.ptes (PTE_ADDR (s.mem vpte) >>> 12) j ≠ 0) :
    ∃ s1 s2, swap_out cfg vpte junk s = .ok s1 ∧
      swap_in cfg (s.ptes (PTE_ADDR (s.mem vpte) >>> 12) j) kalloc s1 = .ok s2 ∧
      ∀ i, i < cfg.NPROC → s.ptes (PTE_ADDR (s.mem vpte) >>> 12) i ≠ 0 →
        PTE_FLAGS (s2.mem (s.ptes (PTE_ADDR (s.mem vpte) >>> 12) i)) =
          (PTE_FLAGS (s.mem vpte) ||| PTE_P) &&& not32 cfg.PTE_S ∧
        (s.mem vpte &&& PTE_P ≠ 0 → s.mem vpte &&& cfg.PTE_S = 0 →
          PTE_FLAGS (s.mem (s.ptes (PTE_ADDR (s.mem vpte) >>> 12) i)) = PTE_FLAGS (s.mem vpte) →
          PTE_FLAGS (s2.mem (s.ptes (PTE_ADDR (s.mem vpte) >>> 12) i)) =
            PTE_FLAGS (s.mem (s.ptes (PTE_ADDR (s.mem vpte) >>> 12) i))) := by
  obtain ⟨hS0, hS, hSP⟩ := hwf
  obtain ⟨hk, _, _⟩ := (find_free_swap_slot_ok cfg s sidx).1 hfind
  have hlt : sidx < 2 ^ 20 := lt_of_lt_of_le hk hslots.1
  have haddr := hslots.2 sidx hk
  obtain ⟨s1, h0, _, _, _, _, _, f6, _, _, f9, _, _, f12, _⟩ :=
    swap_out_facts cfg s vpte junk sidx hfind
  rw [haddr, GETIDX_slot_addr sidx hlt] at f12
  have hidx : s1.mem (s.ptes (PTE_ADDR (s.mem vpte) >>> 12) j) >>> 12 = sidx := by
    rw [f12 j hj hpj]
    exact swapped_entry_index _ _ _ hS hlt (PTE_FLAGS_lt _)
  have hSw : s1.mem (s.ptes (PTE_ADDR (s.mem vpte) >>> 12) j) &&& cfg.PTE_S ≠ 0 := by
    rw [f12 j hj hpj]
    unfold swapped_entry
    rw [swapped_entry_S _ _ _ hS hSP]; exact hS0
  obtain ⟨s2, g0, _, _, _, _, _, _, _, _, _, _, _, g12, _⟩ :=
    swap_in_eq cfg s1 (s.ptes (PTE_ADDR (s.mem vpte) >>> 12) j) kalloc hSw
  rw [hidx] at g12
  refine ⟨s1, s2, h0, g0, ?_⟩
  intro i hi hp
  have hrow : (s1.swap_slots sidx).ptes i = s.ptes (PTE_ADDR (s.mem vpte) >>> 12) i := by
    rw [f9 i]; simp [hi]
  have hv := g12 i hi (by rw [hrow]; exact hp)
  rw [hrow, f6] at hv
  have hfl : PTE_FLAGS (s2.mem (s.ptes (PTE_ADDR (s.mem vpte) >>> 12) i)) =
      (PTE_FLAGS (s.mem vpte) ||| PTE_P) &&& not32 cfg.PTE_S := by
    rw [hv]
    exact restored_entry_flags _ _ _ (PTE_FLAGS_lt _) hS
  refine ⟨hfl, ?_⟩
  intro hP hSc heq
  rw [hfl, heq]
  exact flags_roundtrip _ _ hS hP hSc

/-- Instance of the amended C4 on `shared_state`, process 0 being the victim
and the faulting process. -/
theorem swap_roundtrip_flags_witness :
    ∃ s1 s2, swap_out cfg0 100 [] shared_state = .ok s1 ∧
      swap_in cfg0 100 (some (7 * 4096)) s1 = .ok s2 ∧
      PTE_FLAGS (s2.mem 100) = 0x5 ∧ PTE_FLAGS (s2.mem 200) = 0x5 := by
  obtain ⟨s1, s2, h1, h2, h3⟩ :=
    swap_roundtrip_flags cfg0 shared_state 100 [] 0 0 (some (7 * 4096)) flags_wf_cfg0
      slots_wf_shared_state rfl (by decide) (by decide)
  exact ⟨s1, s2, h1, h2, (h3 0 (by decide) (by decide)).1, (h3 1 (by decide) (by decide)).1⟩

/-! ## C5 -/

/-- C5: round trip of content. For every slot index below NSLOTS (at most
2^20) and every saved flag value below 4096, the index decoded by swap_in from
the swapped entry (`entry >> 12`) is the index `GETIDX(addr)` encoded by
swap_out, which is the slot's own position; so after swap_out, a swap_in on
the swapped entry of any sharer `j` reads the disk address swap_out wrote, and
the restored frame holds the content the evicted frame had. -/
theorem swap_roundtrip_content (cfg : Config) (s : KState) (vpte : Nat) (junk : Page)
    (sidx j : Nat) (kalloc : Option Nat)
    (hwf : flags_wf cfg) (hslots : slots_wf cfg s)
    (hfind : find_free_swap_slot cfg s = .ok sidx)
    (hj : j < cfg.NPROC) (hpj : s.ptes (PTE_ADDR (s.mem vpte) >>> 12) j ≠ 0) :
    (∀ i perm, i < NSLOTS cfg → perm < 4096 →
      swapped_entry cfg (GETIDX (i * 8 + 2)) perm >>> 12 = GETIDX (i * 8 + 2) ∧
      GETIDX (i * 8 + 2) = i) ∧
    ∃ s1 s2, swap_out cfg vpte junk s = .ok s1 ∧
      swap_in cfg (s.ptes (PTE_ADDR (s.mem vpte) >>> 12) j) kalloc s1 = .ok s2 ∧
      s1.mem (s.ptes (PTE_ADDR (s.mem vpte) >>> 12) j) >>> 12 =
        GETIDX (s.swap_slots sidx).addr ∧
      (s1.swap_slots (s1.mem (s.ptes (PTE_ADDR (s.mem vpte) >>> 12) j) >>> 12)).addr =
        (s.swap_slots sidx).addr ∧
      s1.disk (s.swap_slots sidx).addr = s.frames (PTE_ADDR (s.mem vpte) >>> 12) ∧
      s2.frames (V2P_newpage kalloc >>> 12) = s.frames (PTE_ADDR (s.mem vpte) >>> 12) := by
  obtain ⟨hS0, hS, hSP⟩ := hwf
  obtain ⟨hk, _, _⟩ := (find_free_swap_slot_ok cfg s sidx).1 hfind
  have hlt : sidx < 2 ^ 20 := lt_of_lt_of_le hk hslots.1
  have haddr := hslots.2 sidx hk
  constructor
  · intro i perm hi hperm
    have hi2 : i < 2 ^ 20 := lt_of_lt_of_le hi hslots.1
    rw [GETIDX_slot_addr i hi2]
    exact ⟨swapped_entry_index _ _ _ hS hi2 hperm, rfl⟩
  · obtain ⟨s1, h0, _, f2, _, _, _, _, _, f8, _, _, _, f12, _⟩ :=
      swap_out_facts cfg s vpte junk sidx hfind
    have hidx : s1.mem (s.ptes (PTE_ADDR (s.mem vpte) >>> 12) j) >>> 12 = sidx := by
      rw [f12 j hj hpj, haddr, GETIDX_slot_addr sidx hlt]
      exact swapped_entry_index _ _ _ hS hlt (PTE_FLAGS_lt _)
    have hSw : s1.mem (s.ptes (PTE_ADDR (s.mem vpte) >>> 12) j) &&& cfg.PTE_S ≠ 0 := by
      rw [f12 j hj hpj]
      unfold swapped_entry
      rw [swapped_entry_S _ _ _ hS hSP]; exact hS0
    obtain ⟨s2, g0, _, _, g3, _⟩ :=
      swap_in_eq cfg s1 (s.ptes (PTE_ADDR (s.mem vpte) >>> 12) j) kalloc hSw
    refine ⟨s1, s2, h0, g0, ?_, ?_, ?_, ?_⟩
    · rw [hidx, haddr, GETIDX_slot_addr sidx hlt]
    · rw [hidx, f8]
    · rw [f2]; simp
    · rw [g3, hidx, f8, f2]; simp

/-- Instance of C5 on `shared_state`: the content `[1, 2, 3]` of frame 5 comes
back in frame 7. -/
theorem swap_roundtrip_content_witness :
    ∃ s1 s2, swap_out cfg0 100 [9] shared_state = .ok s1 ∧
      swap_in cfg0 100 (some (7 * 4096)) s1 = .ok s2 ∧
      s1.mem 100 >>> 12 = 0 ∧ s1.frames 5 = [9] ∧ s2.frames 7 = [1, 2, 3] := by
  obtain ⟨s1, s2, h1, h2, h3, _, _, h6⟩ :=
    (swap_roundtrip_content cfg0 shared_state 100 [9] 0 0 (some (7 * 4096)) flags_wf_cfg0
      slots_wf_shared_state rfl (by decide) (by decide)).2
  obtain ⟨s1', e1, _, _, f3, _⟩ := swap_out_facts cfg0 shared_state 100 [9] 0 rfl
  have hs : s1 = s1' := Except.ok.inj (h1.symm.trans e1)
  refine ⟨s1, s2, h1, h2, h3, ?_, h6⟩
  rw [hs, f3]; rfl

/-! ## C6 -/

theorem cow_entry_P (n e : Nat) :
    ((n * 4096 ||| PTE_FLAGS e) ||| PTE_W) &&& PTE_P = e &&& PTE_P := by
  apply Nat.eq_of_testBit_eq
  intro i
  simp only [Nat.testBit_and, Nat.testBit_or, testBit_frame_addr, testBit_PTE_FLAGS,
    testBit_PTE_P, testBit_PTE_W]
  by_cases hi : i = 0
  · subst hi; simp
  · simp [hi]

theorem cow_entry_addr (n e : Nat) (hn : n < 2 ^ 20) :
    PTE_ADDR ((n * 4096 ||| PTE_FLAGS e) ||| PTE_W) = n * 4096 := by
  apply Nat.eq_of_testBit_eq
  intro i
  simp only [testBit_PTE_ADDR, Nat.testBit_and, Nat.testBit_or, testBit_frame_addr,
    testBit_PTE_FLAGS, testBit_PTE_W]
  by_cases hi : 12 ≤ i
  · have h1 : ¬ i < 12 := by omega
    have h2 : i ≠ 1 := by omega
    by_cases h32 : i < 32
    · simp [hi, h1, h2, h32]
    · have h3 := testBit_of_lt n 20 (i - 12) hn (by omega)
      simp [hi, h1, h2, h32, h3]
  · simp [hi]

theorem cow_entry_flags (n e : Nat) :
    PTE_FLAGS ((n * 4096 ||| PTE_FLAGS e) ||| PTE_W) = PTE_FLAGS e ||| PTE_W := by
  apply Nat.eq_of_testBit_eq
  intro i
  simp only [Nat.testBit_and, Nat.testBit_or, testBit_frame_addr, testBit_PTE_FLAGS,
    testBit_PTE_W]
  by_cases hi : i < 12
  · have h1 : ¬ 12 ≤ i := by omega
    simp [hi, h1]
  · have h2 : i ≠ 1 := by omega
    simp [hi, h2]

/-- C6: copy-on-write duplication. When the faulting entry is Present and not
Writable, the faulting process is registered on the old frame, the old frame's
reference count exceeds 1 and the allocator returns a distinct frame `n` with
reference count 0, copy_on_write succeeds; afterwards frame `n` holds the old
frame's content, the old frame's content is unchanged, the faulting entry
points at frame `n` with its original flag bits plus Writable, frame `n` has
reference count 1 and the old frame's count has dropped by exactly 1. -/
theorem copy_on_write_duplicate (cfg : Config) (s : KState) (pte pindex n : Nat)
    (hP : s.mem pte &&& PTE_P ≠ 0) (hW : s.mem pte &&& PTE_W = 0)
    (hreg : s.ptes (PTE_ADDR (s.mem pte) >>> 12) pindex ≠ 0)
    (hcnt : 1 < s.rmap (PTE_ADDR (s.mem pte) >>> 12))
    (hn : n < 2 ^ 20) (hne : n ≠ PTE_ADDR (s.mem pte) >>> 12) (hn0 : s.rmap n = 0) :
    ∃ s', copy_on_write cfg pte pindex (some (n * 4096)) s = .ok s' ∧
      s'.frames n = s.frames (PTE_ADDR (s.mem pte) >>> 12) ∧
      s'.frames (PTE_ADDR (s.mem pte) >>> 12) = s.frames (PTE_ADDR (s.mem pte) >>> 12) ∧
      PTE_ADDR (s'.mem pte) >>> 12 = n ∧
      PTE_FLAGS (s'.mem pte) = PTE_FLAGS (s.mem pte) ||| PTE_W ∧
      s'.rmap n = 1 ∧
      s'.rmap (PTE_ADDR (s.mem pte) >>> 12) = s.rmap (PTE_ADDR (s.mem pte) >>> 12) - 1 := by
  have hc1 : ¬ (s.mem pte &&& cfg.PTE_S ≠ 0 ∧ s.mem pte &&& PTE_P = 0) := fun h => hP h.2
  have hc2 : get_rmap (PTE_ADDR (s.mem pte)) s ≠ 1 := by
    unfold get_rmap; omega
  have hc3 : ((n * 4096 ||| PTE_FLAGS (s.mem pte)) ||| PTE_W) &&& PTE_P ≠ 0 := by
    rw [cow_entry_P]; exact hP
  have hne2 : PTE_ADDR (s.mem pte) >>> 12 ≠ n := fun h => hne h.symm
  have heq : copy_on_write cfg pte pindex (some (n * 4096)) s =
      .ok (sub_pte (PTE_ADDR (s.mem pte)) pindex
            (add_pte (n * 4096) pindex pte (cow_copy (n * 4096) pte s))) := by
    simp [copy_on_write, hc1, hW, hc2, add_pte, cow_copy, memmove, hc3]
  refine ⟨_, heq, ?_⟩
  have hreg2 : (add_pte (n * 4096) pindex pte (cow_copy (n * 4096) pte s)).ptes
      (PTE_ADDR (s.mem pte) >>> 12) pindex ≠ 0 := by
    simp only [add_pte, cow_copy, memmove, frame_shift, Function.update_noteq hne2]
    exact hreg
  simp only [sub_pte, hreg2, if_false]
  simp only [add_pte, cow_copy, memmove, frame_shift, Function.update_same, Function.update_noteq hne2,
    cow_entry_addr _ _ hn, cow_entry_flags, hn0, Function.update_noteq hne, true_and]
  simp

/-- Instance of C6 on `shared_state`: process 0 writes to the shared frame 5
and gets the private frame 7. -/
theorem copy_on_write_duplicate_witness :
    ∃ s', copy_on_write cfg0 100 0 (some (7 * 4096)) shared_state = .ok s' ∧
      s'.frames 7 = [1, 2, 3] ∧ s'.frames 5 = [1, 2, 3] ∧
      PTE_ADDR (s'.mem 100) >>> 12 = 7 ∧ PTE_FLAGS (s'.mem 100) = 0x7 ∧
      s'.rmap 7 = 1 ∧ s'.rmap 5 = 1 := by
  obtain ⟨s', h0, h1, h2, h3, h4, h5, h6⟩ :=
    copy_on_write_duplicate cfg0 shared_state 100 0 7 (by decide) (by decide) (by decide)
      (by decide) (by decide) (by decide) (by decide)
  exact ⟨s', h0, h1, h2, h3, h4, h5, h6⟩

/-! ## C7 -/

theorem promote_entry_addr (e : Nat) : PTE_ADDR (e ||| PTE_W) = PTE_ADDR e := by
  apply Nat.eq_of_testBit_eq
  intro i
  simp only [testBit_PTE_ADDR, Nat.testBit_or, testBit_PTE_W]
  by_cases hi : 12 ≤ i
  · have h2 : i ≠ 1 := by omega
    simp [h2]
  · simp [hi]

/-- C7: copy-on-write promotion. When the faulting entry is not Writable, is
not (Swapped and not Present), and its frame has reference count exactly 1,
copy_on_write succeeds whatever the allocator would answer, and the resulting
state is the initial one except that the faulting entry has the Writable bit
set: the entry still designates the same frame, and every reference count,
backpointer row, swap slot, rss value and frame content is unchanged. -/
theorem copy_on_write_promote (cfg : Config) (s : KState) (pte pindex : Nat)
    (kalloc : Option Nat)
    (hW : s.mem pte &&& PTE_W = 0)
    (hns : ¬ (s.mem pte &&& cfg.PTE_S ≠ 0 ∧ s.mem pte &&& PTE_P = 0))
    (hcnt : s.rmap (PTE_ADDR (s.mem pte) >>> 12) = 1) :
    ∃ s', copy_on_write cfg pte pindex kalloc s = .ok s' ∧
      s'.mem pte = s.mem pte ||| PTE_W ∧
      (∀ a, a ≠ pte → s'.mem a = s.mem a) ∧
      PTE_ADDR (s'.mem pte) = PTE_ADDR (s.mem pte) ∧
      s'.rmap = s.rmap ∧ s'.ptes = s.ptes ∧ s'.swap_slots = s.swap_slots ∧
      s'.rss = s.rss ∧ s'.frames = s.frames ∧ s'.disk = s.disk := by
  have heq : copy_on_write cfg pte pindex kalloc s =
      .ok { s with mem := Function.update s.mem pte (s.mem pte ||| PTE_W) } := by
    simp only [copy_on_write, hns, hW, get_rmap, hcnt, if_true, if_false]
  refine ⟨_, heq, ?_, ?_, ?_, rfl, rfl, rfl, rfl, rfl, rfl⟩
  · simp
  · intro a ha
    simp [Function.update_noteq ha]
  · simp [promote_entry_addr]

/-- Instance of C7 on `exclusive_state`, with an allocator that has no page
left. -/
theorem copy_on_write_promote_witness :
    ∃ s', copy_on_write cfg0 100 0 none exclusive_state = .ok s' ∧
      s'.mem 100 = 0x5007 ∧ s'.rmap = exclusive_state.rmap ∧
      s'.frames = exclusive_state.frames := by
  obtain ⟨s', h0, h1, _, _, h4, _, _, _, h8, _⟩ :=
    copy_on_write_promote cfg0 exclusive_state 100 0 none (by decide) (by decide) (by decide)
  exact ⟨s', h0, h1, h4, h8⟩

/-! ## C8 -/

theorem copy_on_write_delegates (cfg : Config) (s : KState) (pte pindex : Nat)
    (kalloc : Option Nat)
    (h : s.mem pte &&& cfg.PTE_S ≠ 0 ∧ s.mem pte &&& PTE_P = 0) :
    copy_on_write cfg pte pindex kalloc s = swap_in cfg pte kalloc s := by
  unfold copy_on_write
  rw [if_pos h]

/-- C8 as stated fails: the entry at address 300 of `shared_state` is `0`
(not Writable, not Present, not Swapped), which the claim calls fatal, yet
copy_on_write returns normally (it takes the duplication branch). -/
theorem copy_on_write_fatal_counterexample :
    shared_state.mem 300 &&& PTE_W = 0 ∧ shared_state.mem 300 &&& PTE_P = 0 ∧
    shared_state.mem 300 &&& cfg0.PTE_S = 0 ∧
    copy_on_write cfg0 300 0 (some (7 * 4096)) shared_state =
      .ok (add_pte (7 * 4096) 0 300 (cow_copy (7 * 4096) 300 shared_state)) := by
  refine ⟨by decide, by decide, by decide, rfl⟩

/-- C8, amended: copy_on_write takes its own panic ("PAGE FAULT CANT BE
HANDLED") exactly for the entries that have Writable set and are not (Swapped
and not Present); an entry without Writable is never refused on account of its
Present and Swapped bits: the only other panic of the handler is the failed
allocation of the duplication branch. -/
theorem copy_on_write_fatal_iff (cfg : Config) (s : KState) (pte pindex : Nat)
    (kalloc : Option Nat) :
    (copy_on_write cfg pte pindex kalloc s = .error "PAGE FAULT CANT BE HANDLED" ↔
      (s.mem pte &&& PTE_W ≠ 0 ∧
        ¬ (s.mem pte &&& cfg.PTE_S ≠ 0 ∧ s.mem pte &&& PTE_P = 0))) ∧
    ((∃ e, copy_on_write cfg pte pindex kalloc s = .error e) ↔
      ((s.mem pte &&& PTE_W ≠ 0 ∧
          ¬ (s.mem pte &&& cfg.PTE_S ≠ 0 ∧ s.mem pte &&& PTE_P = 0)) ∨
       (s.mem pte &&& PTE_W = 0 ∧
          ¬ (s.mem pte &&& cfg.PTE_S ≠ 0 ∧ s.mem pte &&& PTE_P = 0) ∧
          s.rmap (PTE_ADDR (s.mem pte) >>> 12) ≠ 1 ∧ kalloc = none))) := by
  by_cases h1 : s.mem pte &&& cfg.PTE_S ≠ 0 ∧ s.mem pte &&& PTE_P = 0
  · have hok := swap_in_ok cfg s pte kalloc h1.1
    rw [copy_on_write_delegates cfg s pte pindex kalloc h1, hok]
    simp [h1]
  · by_cases h2 : s.mem pte &&& PTE_W = 0
    · by_cases h3 : s.rmap (PTE_ADDR (s.mem pte) >>> 12) = 1
      · simp [copy_on_write, h1, h2, get_rmap, h3]
      · cases kalloc with
        | none => simp [copy_on_write, h1, h2, get_rmap, h3]
        | some npa =>
          simp only [copy_on_write, h1, h2, get_rmap, h3, if_true, if_false]
          constructor
          · split_ifs <;> simp
          · split_ifs <;> simp
    · simp [copy_on_write, h1, h2]

/-! ## C9 -/

/-- C9: swap_in panics exactly when the faulting entry lacks the Swapped flag
(and then with "Not a swapped out page!"); consequently, for every entry with
Swapped set and Present clear, copy_on_write is swap_in, which does not panic:
it returns exactly the state swap_in returns. -/
theorem swap_in_fatal_iff (cfg : Config) (s : KState) (pte pindex : Nat)
    (kalloc : Option Nat) :
    ((∃ e, swap_in cfg pte kalloc s = .error e) ↔ s.mem pte &&& cfg.PTE_S = 0) ∧
    (swap_in cfg pte kalloc s = .error "Not a swapped out page!" ↔
      s.mem pte &&& cfg.PTE_S = 0) ∧
    (s.mem pte &&& cfg.PTE_S ≠ 0 → s.mem pte &&& PTE_P = 0 →
      copy_on_write cfg pte pindex kalloc s = swap_in cfg pte kalloc s ∧
      ∃ s', copy_on_write cfg pte pindex kalloc s = .ok s') := by
  refine ⟨?_, ?_, ?_⟩
  · by_cases h : s.mem pte &&& cfg.PTE_S = 0
    · simp [swap_in, h]
    · rw [swap_in_ok cfg s pte kalloc h]
      simp [h]
  · by_cases h : s.mem pte &&& cfg.PTE_S = 0
    · simp [swap_in, h]
    · rw [swap_in_ok cfg s pte kalloc h]
      simp [h]
  · intro hS hP
    have hd := copy_on_write_delegates cfg s pte pindex kalloc ⟨hS, hP⟩
    exact ⟨hd, _, hd.trans (swap_in_ok cfg s pte kalloc hS)⟩

/-- Instance of C9 on `swapped_state`: the fault of process 0 on its swapped
entry (address 100) is served by swap_in. -/
theorem swap_in_fatal_iff_witness :
    copy_on_write cfg0 100 0 (some (7 * 4096)) swapped_state =
      swap_in cfg0 100 (some (7 * 4096)) swapped_state ∧
    ∃ s', copy_on_write cfg0 100 0 (some (7 * 4096)) swapped_state = .ok s' :=
  (swap_in_fatal_iff cfg0 swapped_state 100 0 (some (7 * 4096))).2.2 (by decide) (by decide)

/-! ## C10 -/

theorem free_inv_swap_in (cfg : Config) (s s' : KState) (pte : Nat) (kalloc : Option Nat)
    (hinv : free_inv cfg s) (ho : swap_in cfg pte kalloc s = .ok s') : free_inv cfg s' := by
  have hS : s.mem pte &&& cfg.PTE_S ≠ 0 := by
    intro h0
    simp [swap_in, h0] at ho
  obtain ⟨s2, g0, _, _, _, g4, _, _, g7, _⟩ := swap_in_eq cfg s pte kalloc hS
  have hs : s' = s2 := Except.ok.inj (ho.symm.trans g0)
  subst hs
  intro i hi hfree
  by_cases hx : i = s.mem pte >>> 12
  · rw [hx]; exact g7
  · rw [g4 i hx] at hfree ⊢
    exact hinv i hi hfree

/-- C11 fails on the code, evaluated on `swapped_state` (slot 0 holds the page
shared by processes 0 and 1, reference count 2). `freeslot(0, 2)`, for a
process without backpointer, is not a no-op: the count drops to 1.
`freeslot(0, 0)` leaves the backpointer of process 0 in place, so the count is
no longer the number of backpointers. After both sharers have left, the slot
is marked free with count 0, but keeps its saved permissions and both
backpointers. -/
theorem freeslot_divergence :
    ((swapped_state.swap_slots 0).ptes 2 = 0 ∧ (swapped_state.swap_slots 0).rmap = 2 ∧
      ((freeslot 0 2 swapped_state).swap_slots 0).rmap = 1) ∧
    ((swapped_state.swap_slots 0).ptes 0 = 100 ∧
      count_ptes (swapped_state.swap_slots 0).ptes cfg0.NPROC = 2 ∧
      ((freeslot 0 0 swapped_state).swap_slots 0).ptes 0 = 100 ∧
      ((freeslot 0 0 swapped_state).swap_slots 0).rmap = 1 ∧
      count_ptes ((freeslot 0 0 swapped_state).swap_slots 0).ptes cfg0.NPROC = 2 ∧
      ¬ slot_rmap_inv cfg0 (freeslot 0 0 swapped_state)) ∧
    (((freeslot 0 1 (freeslot 0 0 swapped_state)).swap_slots 0).rmap = 0 ∧
      ((freeslot 0 1 (freeslot 0 0 swapped_state)).swap_slots 0).is_free = 1 ∧
      ((freeslot 0 1 (freeslot 0 0 swapped_state)).swap_slots 0).page_perm = 5 ∧
      ((freeslot 0 1 (freeslot 0 0 swapped_state)).swap_slots 0).ptes 0 = 100 ∧
      ((freeslot 0 1 (freeslot 0 0 swapped_state)).swap_slots 0).ptes 1 = 200) := by
  refine ⟨by decide, ⟨by decide, by decide, by decide, by decide, by decide, ?_⟩, by decide⟩
  intro h
  exact absurd (h 0) (by decide)

/-! ## C12 -/

/-- C12: frame detach. If the process has no backpointer for the frame,
sub_pte returns the state unchanged; otherwise it clears exactly that
backpointer, lowers that frame's reference count by 1 and that process's rss
by one page, and touches nothing else; applying sub_pte twice with the same
arguments gives the same state as applying it once. -/
theorem sub_pte_spec (s : KState) (pa index : Nat) :
    (s.ptes (pa >>> 12) index = 0 → sub_pte pa index s = s) ∧
    (s.ptes (pa >>> 12) index ≠ 0 →
      (∀ g i, (sub_pte pa index s).ptes g i =
        if g = pa >>> 12 ∧ i = index then 0 else s.ptes g i) ∧
      (∀ g, (sub_pte pa index s).rmap g =
        if g = pa >>> 12 then s.rmap g - 1 else s.rmap g) ∧
      (∀ i, (sub_pte pa index s).rss i =
        if i = index then s.rss i - PGSIZE else s.rss i) ∧
      (sub_pte pa index s).swap_slots = s.swap_slots ∧
      (sub_pte pa index s).mem = s.mem ∧
      (sub_pte pa index s).frames = s.frames ∧
      (sub_pte pa index s).disk = s.disk) ∧
    sub_pte pa index (sub_pte pa index s) = sub_pte pa index s := by
  refine ⟨?_, ?_, ?_⟩
  · intro h
    simp [sub_pte, h]
  · intro h
    unfold sub_pte
    rw [if_neg h]
    refine ⟨?_, ?_, ?_, rfl, rfl, rfl, rfl⟩
    · intro g i
      by_cases hg : g = pa >>> 12
      · subst hg
        by_cases hi : i = index
        · subst hi; simp
        · simp [Function.update_noteq hi, hi]
      · simp [Function.update_noteq hg, hg]
    · intro g
      by_cases hg : g = pa >>> 12
      · subst hg; simp
      · simp [Function.update_noteq hg, hg]
    · intro i
      by_cases hi : i = index
      · subst hi; simp
      · simp [Function.update_noteq hi, hi]
  · by_cases h : s.ptes (pa >>> 12) index = 0
    · simp [sub_pte, h]
    · have h2 : (sub_pte pa index s).ptes (pa >>> 12) index = 0 := by
        simp [sub_pte, h]
      generalize sub_pte pa index s = s1 at h2 ⊢
      simp [sub_pte, h2]

/-- Instance of C12 on `shared_state`: process 2 is not registered on frame 5,
process 0 is. -/
theorem sub_pte_spec_witness :
    sub_pte (5 * 4096) 2 shared_state = shared_state ∧
    (sub_pte (5 * 4096) 0 shared_state).rmap 5 = 1 ∧
    (sub_pte (5 * 4096) 0 shared_state).rss 0 = 0 ∧
    (sub_pte (5 * 4096) 0 shared_state).ptes 5 1 = 200 :=
  ⟨(sub_pte_spec shared_state (5 * 4096) 2).1 (by decide),
   ((sub_pte_spec shared_state (5 * 4096) 0).2.1 (by decide)).2.1 5,
   ((sub_pte_spec shared_state (5 * 4096) 0).2.1 (by decide)).2.2.1 0,
   ((sub_pte_spec shared_state (5 * 4096) 0).2.1 (by decide)).1 5 1⟩

/-! ## C13 -/

/-- C13 (scenario D): on an occupied slot whose reference count is at least 2,
one freeslot lowers the slot's reference count by exactly 1 and leaves the
slot occupied, with its saved permissions, disk address and backpointers, and
every other slot, unchanged. -/
theorem freeslot_shared (s : KState) (k x : Nat)
    (hocc : (s.swap_slots k).is_free = 0) (hcnt : 2 ≤ (s.swap_slots k).rmap) :
    ((freeslot k x s).swap_slots k).rmap = (s.swap_slots k).rmap - 1 ∧
    ((freeslot k x s).swap_slots k).is_free = 0 ∧
    ((freeslot k x s).swap_slots k).page_perm = (s.swap_slots k).page_perm ∧
    ((freeslot k x s).swap_slots k).addr = (s.swap_slots k).addr ∧
    ((freeslot k x s).swap_slots k).ptes = (s.swap_slots k).ptes ∧
    (∀ j, j ≠ k → (freeslot k x s).swap_slots j = s.swap_slots j) := by
  have h : ¬ (s.swap_slots k).rmap - 1 ≤ 0 := by omega
  refine ⟨?_, ?_, ?_, ?_, ?_, ?_⟩
  · simp [freeslot, h]
  · simp [freeslot, h, hocc]
  · simp [freeslot, h]
  · simp [freeslot, h]
  · simp [freeslot, h]
  · intro j hj
    simp [freeslot, Function.update_noteq hj]

/-- Instance of C13 on `swapped_state`: process 1 exits while slot 0 is shared
with process 0. -/
theorem freeslot_shared_witness :
    ((freeslot 0 1 swapped_state).swap_slots 0).rmap = 1 ∧
    ((freeslot 0 1 swapped_state).swap_slots 0).is_free = 0 ∧
    ((freeslot 0 1 swapped_state).swap_slots 0).page_perm = 5 ∧
    ((freeslot 0 1 swapped_state).swap_slots 0).addr = 2 := by
  obtain ⟨h1, h2, h3, h4, _⟩ := freeslot_shared swapped_state 0 1 (by decide) (by decide)
  exact ⟨h1, h2, h3, h4⟩

/-! ## C17 -/

theorem swapinit_loop_ptes (cfg : Config) (slots : Nat → swap_slot) (n i j : Nat)
    (hi : i < n) (hj : j < cfg.NPROC) : (swapinit_loop cfg slots n i).ptes j = 0 := by
  induction n with
  | zero => omega
  | succ k ih =>
    by_cases hk : i = k
    · subst hk
      simp [swapinit_loop, clear_ptes_apply, hj]
    · simp only [swapinit_loop, Function.update_noteq hk]
      exact ih (by omega)

/-- C17: after swapinit (with SWAPBLOCKS an `int` constant), every slot `i`
below NSLOTS is free (`is_free = 1`, saved permissions 0, reference count 0,
every backpointer null) and has disk address `2 + 8*i`; `GETIDX` inverts the
assignment, and the 8-block regions of distinct slots do not overlap. Nothing
but the slot pool is changed. -/
theorem swapinit_spec (cfg : Config) (s : KState) (hsw : cfg.SWAPBLOCKS < 2 ^ 31) :
    (∀ i, i < NSLOTS cfg →
      ((swapinit cfg s).swap_slots i).is_free = 1 ∧
      ((swapinit cfg s).swap_slots i).page_perm = 0 ∧
      ((swapinit cfg s).swap_slots i).rmap = 0 ∧
      (∀ j, j < cfg.NPROC → ((swapinit cfg s).swap_slots i).ptes j = 0) ∧
      ((swapinit cfg s).swap_slots i).addr = 2 + 8 * i ∧
      GETIDX ((swapinit cfg s).swap_slots i).addr = i) ∧
    (∀ i j, i < NSLOTS cfg → j < NSLOTS cfg → i < j →
      ((swapinit cfg s).swap_slots i).addr + 8 ≤ ((swapinit cfg s).swap_slots j).addr) ∧
    (swapinit cfg s).rmap = s.rmap ∧ (swapinit cfg s).ptes = s.ptes ∧
    (swapinit cfg s).mem = s.mem ∧ (swapinit cfg s).rss = s.rss := by
  have hb : cfg.SWAPBLOCKS < 2147483648 := by simpa using hsw
  have haddr : ∀ i, i < NSLOTS cfg → ((swapinit cfg s).swap_slots i).addr = 2 + 8 * i := by
    intro i hi
    rw [show (swapinit cfg s).swap_slots = swapinit_loop cfg s.swap_slots (NSLOTS cfg) from rfl,
      (swapinit_loop_apply cfg s.swap_slots (NSLOTS cfg) i hi).1]
    unfold NSLOTS at hi
    unfold U32
    omega
  refine ⟨?_, ?_, rfl, rfl, rfl, rfl⟩
  · intro i hi
    obtain ⟨_, h2, h3, h4⟩ := swapinit_loop_apply cfg s.swap_slots (NSLOTS cfg) i hi
    refine ⟨h2, h3, h4, ?_, haddr i hi, ?_⟩
    · intro j hj
      exact swapinit_loop_ptes cfg s.swap_slots (NSLOTS cfg) i j hi hj
    · rw [haddr i hi]
      unfold NSLOTS at hi
      unfold GETIDX U32
      omega
  · intro i j hi hj hij
    rw [haddr i hi, haddr j hj]
    omega

/-- Instance of C17 on the configuration `cfg0` (4 slots): `boot_state` is the
zero-initialised state after swapinit. -/
theorem swapinit_spec_witness :
    (boot_state.swap_slots 3).is_free = 1 ∧ (boot_state.swap_slots 3).addr = 26 ∧
    GETIDX (boot_state.swap_slots 3).addr = 3 ∧
    (boot_state.swap_slots 2).addr + 8 ≤ (boot_state.swap_slots 3).addr := by
  obtain ⟨h1, h2, _⟩ := swapinit_spec cfg0
    { rmap := fun _ => 0, ptes := fun _ _ => 0, swap_slots := fun _ => zero_slot,
      mem := fun _ => 0, rss := fun _ => 0, frames := fun _ => [], disk := fun _ => [] }
    (by decide)
  obtain ⟨a1, _, _, _, a5, a6⟩ := h1 3 (by decide)
  exact ⟨a1, a5, a6, h2 2 3 (by decide) (by decide) (by decide)⟩

/-! ## C14 -/

theorem swap_out_loop_mem_cases (cfg : Config) (f sidx index n : Nat) (s : KState) (a : Nat) :
    (swap_out_loop cfg f sidx index n s).mem a = s.mem a ∨
    (swap_out_loop cfg f sidx index n s).mem a =
      swapped_entry cfg index (s.swap_slots sidx).page_perm := by
  induction n with
  | zero => left; rfl
  | succ k ih =>
    simp only [swap_out_loop, swap_out_step_mem,
      (swap_out_loop_slots cfg f sidx index k s sidx).1]
    by_cases hp : (swap_out_loop cfg f sidx index k s).ptes f k = 0
    · simp only [hp, ne_eq, not_true_eq_false, if_false]; exact ih
    · simp only [hp, ne_eq, not_false_eq_true, if_true]
      by_cases ha : a = (swap_out_loop cfg f sidx index k s).ptes f k
      · right; rw [ha]; simp
      · rw [Function.update_noteq ha]; exact ih

theorem swap_in_loop_mem_cases (cfg : Config) (npa index n : Nat) (s : KState) (a : Nat) :
    (swap_in_loop cfg npa index n s).mem a = s.mem a ∨
    (swap_in_loop cfg npa index n s).mem a =
      restored_entry cfg npa (s.swap_slots index).page_perm := by
  induction n with
  | zero => left; rfl
  | succ k ih =>
    simp only [swap_in_loop, swap_in_step_mem, (swap_in_loop_other cfg npa index k s).2.2.2]
    by_cases hp : (s.swap_slots index).ptes k = 0
    · simp only [hp, ne_eq, not_true_eq_false, if_false]; exact ih
    · simp only [hp, ne_eq, not_false_eq_true, if_true]
      by_cases ha : a = (s.swap_slots index).ptes k
      · right; rw [ha]; simp
      · rw [Function.update_noteq ha]; exact ih

theorem swap_out_mem_cases (cfg : Config) (s s' : KState) (pte : Nat) (junk : Page)
    (ho : swap_out cfg pte junk s = .ok s') (a : Nat) :
    s'.mem a = s.mem a ∨ ∃ index, s'.mem a = swapped_entry cfg index (PTE_FLAGS (s.mem pte)) := by
  cases hfind : find_free_swap_slot cfg s with
  | error e => simp [swap_out, hfind] at ho
  | ok sidx =>
    have hs := Except.ok.inj (ho.symm.trans (swap_out_eq cfg s pte junk sidx hfind))
    obtain ⟨_, p2, _, _, p5, _⟩ := swap_out_prepare_fields cfg pte junk sidx s
    rcases swap_out_loop_mem_cases cfg (PTE_ADDR (s.mem pte) >>> 12) sidx
      (GETIDX (s.swap_slots sidx).addr) cfg.NPROC (swap_out_prepare cfg pte junk sidx s) a
      with h | h
    · left; rw [hs, h, p2]
    · right; exact ⟨_, by rw [hs, h, p5]⟩

theorem swap_in_mem_cases (cfg : Config) (s s' : KState) (pte : Nat) (kalloc : Option Nat)
    (ho : swap_in cfg pte kalloc s = .ok s') (a : Nat) :
    s'.mem a = s.mem a ∨ ∃ npa perm, s'.mem a = restored_entry cfg npa perm := by
  have hS : s.mem pte &&& cfg.PTE_S ≠ 0 := by
    intro h0
    simp [swap_in, h0] at ho
  have hs := Except.ok.inj (ho.symm.trans (swap_in_ok cfg s pte kalloc hS))
  rcases swap_in_loop_mem_cases cfg (V2P_newpage kalloc) (s.mem pte >>> 12) cfg.NPROC
    (swap_in_start (V2P_newpage kalloc) (s.mem pte >>> 12) s) a with h | h
  · left; rw [hs]; exact h
  · right; exact ⟨_, _, by rw [hs]; exact h⟩

theorem testBit_one_of_and_W (S : Nat) (h : S &&& PTE_W = 0) : S.testBit 1 = false := by
  have := congrArg (fun x => Nat.testBit x 1) h
  simp only [Nat.testBit_and, testBit_PTE_W, Nat.zero_testBit, decide_True, Bool.and_true] at this
  exact this

theorem or_W_and_P (e : Nat) : (e ||| PTE_W) &&& PTE_P = e &&& PTE_P := by
  apply Nat.eq_of_testBit_eq
  intro i
  simp only [Nat.testBit_and, Nat.testBit_or, testBit_PTE_P, testBit_PTE_W]
  by_cases hi : i = 0
  · subst hi; simp
  · simp [hi]

theorem or_W_and_S (e S : Nat) (hSW : S &&& PTE_W = 0) : (e ||| PTE_W) &&& S = e &&& S := by
  apply Nat.eq_of_testBit_eq
  intro i
  have h1 := testBit_one_of_and_W S hSW
  simp only [Nat.testBit_and, Nat.testBit_or, testBit_PTE_W]
  by_cases hi : i = 1
  · subst hi; simp [h1]
  · simp [hi]

theorem cow_entry_S (n e S : Nat) (hS : S < 4096) (hSW : S &&& PTE_W = 0) :
    ((n * 4096 ||| PTE_FLAGS e) ||| PTE_W) &&& S = e &&& S := by
  apply Nat.eq_of_testBit_eq
  intro i
  have h1 := testBit_one_of_and_W S hSW
  simp only [Nat.testBit_and, Nat.testBit_or, testBit_frame_addr, testBit_PTE_FLAGS,
    testBit_PTE_W]
  by_cases hi : i < 12
  · have h2 : ¬ 12 ≤ i := by omega
    by_cases hi1 : i = 1
    · subst hi1; simp [h1]
    · simp [hi, h2, hi1]
  · have h3 := testBit_of_lt S 12 i (by simpa using hS) (by omega)
    simp [h3]

theorem copy_on_write_mem (cfg : Config) (s s' : KState) (pte pindex : Nat)
    (kalloc : Option Nat)
    (hnd : ¬ (s.mem pte &&& cfg.PTE_S ≠ 0 ∧ s.mem pte &&& PTE_P = 0))
    (ho : copy_on_write cfg pte pindex kalloc s = .ok s') :
    s'.mem = Function.update s.mem pte (s.mem pte ||| PTE_W) ∨
    ∃ npa, kalloc = some npa ∧
      s'.mem = Function.update s.mem pte ((npa ||| PTE_FLAGS (s.mem pte)) ||| PTE_W) := by
  unfold copy_on_write at ho
  rw [if_neg hnd] at ho
  by_cases hW : s.mem pte &&& PTE_W = 0
  · rw [if_pos hW] at ho
    by_cases hc : get_rmap (PTE_ADDR (s.mem pte)) s = 1
    · simp only [hc, if_true] at ho
      left
      rw [← Except.ok.inj ho]
    · simp only [hc, if_false] at ho
      cases kalloc with
      | none => simp at ho
      | some npa =>
        right
        refine ⟨npa, rfl, ?_⟩
        simp only at ho
        split_ifs at ho
        · rw [← Except.ok.inj ho]
          unfold sub_pte
          split_ifs <;> rfl
        · rw [← Except.ok.inj ho]; rfl
        · rw [← Except.ok.inj ho]; rfl
  · rw [if_neg hW] at ho
    simp at ho

theorem excl_inv_swap_out (cfg : Config) (s s' : KState) (pte : Nat) (junk : Page)
    (hinv : excl_inv cfg s) (ho : swap_out cfg pte junk s = .ok s') : excl_inv cfg s' := by
  rintro a ⟨hP, hS⟩
  rcases swap_out_mem_cases cfg s s' pte junk ho a with h | ⟨idx, h⟩
  · rw [h] at hP hS
    exact hinv a ⟨hP, hS⟩
  · rw [h] at hP
    exact hP (swapped_entry_P _ _ _)

theorem excl_inv_swap_in (cfg : Config) (s s' : KState) (pte : Nat) (kalloc : Option Nat)
    (hS4 : cfg.PTE_S < 4096)
    (hinv : excl_inv cfg s) (ho : swap_in cfg pte kalloc s = .ok s') : excl_inv cfg s' := by
  rintro a ⟨hP, hS⟩
  rcases swap_in_mem_cases cfg s s' pte kalloc ho a with h | ⟨npa, perm, h⟩
  · rw [h] at hP hS
    exact hinv a ⟨hP, hS⟩
  · rw [h] at hS
    exact hS (restored_entry_S _ _ _ hS4)

theorem excl_inv_copy_on_write (cfg : Config) (s s' : KState) (pte pindex : Nat)
    (kalloc : Option Nat) (hS4 : cfg.PTE_S < 4096) (hSW : cfg.PTE_S &&& PTE_W = 0)
    (hal : ∀ npa, kalloc = some npa → npa % 4096 = 0)
    (hinv : excl_inv cfg s) (ho : copy_on_write cfg pte pindex kalloc s = .ok s') :
    excl_inv cfg s' := by
  by_cases hd : s.mem pte &&& cfg.PTE_S ≠ 0 ∧ s.mem pte &&& PTE_P = 0
  · rw [copy_on_write_delegates cfg s pte pindex kalloc hd] at ho
    exact excl_inv_swap_in cfg s s' pte kalloc hS4 hinv ho
  · rintro a ⟨hP, hS⟩
    rcases copy_on_write_mem cfg s s' pte pindex kalloc hd ho with h | ⟨npa, hk, h⟩
    · rw [h] at hP hS
      by_cases ha : a = pte
      · subst ha
        rw [Function.update_same] at hP hS
        rw [or_W_and_P] at hP
        rw [or_W_and_S _ _ hSW] at hS
        exact hinv a ⟨hP, hS⟩
      · rw [Function.update_noteq ha] at hP hS
        exact hinv a ⟨hP, hS⟩
    · rw [h] at hP hS
      by_cases ha : a = pte
      · subst ha
        rw [Function.update_same] at hP hS
        have hn : npa = npa / 4096 * 4096 := by
          have := hal npa hk
          omega
        rw [hn, cow_entry_P] at hP
        rw [hn, cow_entry_S _ _ _ hS4 hSW] at hS
        exact hinv a ⟨hP, hS⟩
      · rw [Function.update_noteq ha] at hP hS
        exact hinv a ⟨hP, hS⟩

/-- C14: Present and Swapped stay mutually exclusive. If no page-table word has
both flags set, none has both set after a swap_out, a swap_in or a
copy_on_write (delegation, promotion or duplication, the allocator returning
page-aligned addresses); every entry rewritten by swap_out has Swapped set and
Present clear, every entry rewritten by swap_in has Present set and Swapped
clear. The Swapped flag is a flag distinct from Present and Writable. -/
theorem present_swapped_exclusive (cfg : Config) (s : KState)
    (hwf : flags_wf cfg) (hSW : cfg.PTE_S &&& PTE_W = 0) (hinv : excl_inv cfg s) :
    (∀ pte junk s', swap_out cfg pte junk s = .ok s' →
      excl_inv cfg s' ∧
      ∀ i, i < cfg.NPROC → s.ptes (PTE_ADDR (s.mem pte) >>> 12) i ≠ 0 →
        s'.mem (s.ptes (PTE_ADDR (s.mem pte) >>> 12) i) &&& cfg.PTE_S ≠ 0 ∧
        s'.mem (s.ptes (PTE_ADDR (s.mem pte) >>> 12) i) &&& PTE_P = 0) ∧
    (∀ pte kalloc s', swap_in cfg pte kalloc s = .ok s' →
      excl_inv cfg s' ∧
      ∀ i, i < cfg.NPROC → (s.swap_slots (s.mem pte >>> 12)).ptes i ≠ 0 →
        s'.mem ((s.swap_slots (s.mem pte >>> 12)).ptes i) &&& PTE_P ≠ 0 ∧
        s'.mem ((s.swap_slots (s.mem pte >>> 12)).ptes i) &&& cfg.PTE_S = 0) ∧
    (∀ pte pindex kalloc s', (∀ npa, kalloc = some npa → npa % 4096 = 0) →
      copy_on_write cfg pte pindex kalloc s = .ok s' → excl_inv cfg s') := by
  obtain ⟨hS0, hS4, hSP⟩ := hwf
  refine ⟨?_, ?_, ?_⟩
  · intro pte junk s' ho
    refine ⟨excl_inv_swap_out cfg s s' pte junk hinv ho, ?_⟩
    intro i hi hp
    cases hfind : find_free_swap_slot cfg s with
    | error e => simp [swap_out, hfind] at ho
    | ok sidx =>
      obtain ⟨s1, h0, _, _, _, _, _, _, _, _, _, _, _, f12, _⟩ :=
        swap_out_facts cfg s pte junk sidx hfind
      have hs : s' = s1 := Except.ok.inj (ho.symm.trans h0)
      subst hs
      rw [f12 i hi hp]
      refine ⟨?_, swapped_entry_P _ _ _⟩
      unfold swapped_entry
      rw [swapped_entry_S _ _ _ hS4 hSP]; exact hS0
  · intro pte kalloc s' ho
    refine ⟨excl_inv_swap_in cfg s s' pte kalloc hS4 hinv ho, ?_⟩
    intro i hi hp
    have hS : s.mem pte &&& cfg.PTE_S ≠ 0 := by
      intro h0
      simp [swap_in, h0] at ho
    obtain ⟨s2, g0, _, _, _, _, _, _, _, _, _, _, _, g12, _⟩ := swap_in_eq cfg s pte kalloc hS
    have hs : s' = s2 := Except.ok.inj (ho.symm.trans g0)
    subst hs
    rw [g12 i hi hp]
    unfold restored_entry
    refine ⟨?_, restored_entry_S _ _ _ hS4⟩
    rw [restored_entry_P _ _ _ hS4 hSP]; decide
  · intro pte pindex kalloc s' hal ho
    exact excl_inv_copy_on_write cfg s s' pte pindex kalloc hS4 hSW hal hinv ho

theorem excl_inv_shared_state : excl_inv cfg0 shared_state := by
  rintro a ⟨hP, hS⟩
  by_cases h1 : a = 100
  · subst h1; exact hS (by decide)
  · by_cases h2 : a = 200
    · subst h2; exact hS (by decide)
    · apply hP
      simp [shared_state, h1, h2]

/-- Instance of C14 on `shared_state`: after the swap-out of frame 5, after the
following swap-in, and after a write fault of process 0. -/
theorem present_swapped_exclusive_witness :
    excl_inv cfg0 swapped_state ∧
    (swapped_state.mem 200 &&& cfg0.PTE_S ≠ 0 ∧ swapped_state.mem 200 &&& PTE_P = 0) ∧
    excl_inv cfg0 (sub_pte (PTE_ADDR (shared_state.mem 100)) 0
      (add_pte (7 * 4096) 0 100 (cow_copy (7 * 4096) 100 shared_state))) := by
  obtain ⟨h1, _, h3⟩ :=
    present_swapped_exclusive cfg0 shared_state flags_wf_cfg0 (by decide) excl_inv_shared_state
  obtain ⟨a1, a2⟩ := h1 100 [] swapped_state rfl
  refine ⟨a1, a2 1 (by decide) (by decide), ?_⟩
  refine h3 100 0 (some (7 * 4096)) _ ?_ ?_
  · intro npa hk
    cases hk
    decide
  · have hc : get_rmap (PTE_ADDR (shared_state.mem 100)) shared_state ≠ 1 := by decide
    have hp : (add_pte (7 * 4096) 0 100 (cow_copy (7 * 4096) 100 shared_state)).mem 100
        &&& PTE_P ≠ 0 := by decide
    have hd : ¬ (shared_state.mem 100 &&& cfg0.PTE_S ≠ 0 ∧ shared_state.mem 100 &&& PTE_P = 0) := by
      decide
    have hw : shared_state.mem 100 &&& PTE_W = 0 := by decide
    simp only [copy_on_write, hd, hw, hc, hp, if_true, if_false, ne_eq, not_false_eq_true]

/-! ## C15 -/

theorem copy_on_write_promote_eq (cfg : Config) (s : KState) (pte pindex : Nat)
    (kalloc : Option Nat)
    (hW : s.mem pte &&& PTE_W = 0)
    (hns : ¬ (s.mem pte &&& cfg.PTE_S ≠ 0 ∧ s.mem pte &&& PTE_P = 0))
    (hcnt : s.rmap (PTE_ADDR (s.mem pte) >>> 12) = 1) :
    copy_on_write cfg pte pindex kalloc s =
      .ok { s with mem := Function.update s.mem pte (s.mem pte ||| PTE_W) } := by
  simp only [copy_on_write, hns, hW, get_rmap, hcnt, if_true, if_false]

theorem copy_on_write_dup_eq (cfg : Config) (s : KState) (pte pindex npa : Nat)
    (hW : s.mem pte &&& PTE_W = 0)
    (hns : ¬ (s.mem pte &&& cfg.PTE_S ≠ 0 ∧ s.mem pte &&& PTE_P = 0))
    (hcnt : s.rmap (PTE_ADDR (s.mem pte) >>> 12) ≠ 1) :
    copy_on_write cfg pte pindex (some npa) s =
      if (add_pte npa pindex pte (cow_copy npa pte s)).mem pte &&& PTE_P ≠ 0 then
        .ok (sub_pte (PTE_ADDR (s.mem pte)) pindex (add_pte npa pindex pte (cow_copy npa pte s)))
      else if (add_pte npa pindex pte (cow_copy npa pte s)).mem pte &&& cfg.PTE_S ≠ 0 then
        .ok (freeslot (PTE_ADDR ((add_pte npa pindex pte (cow_copy npa pte s)).mem pte) >>> 12)
              pindex (add_pte npa pindex pte (cow_copy npa pte s)))
      else .ok (add_pte npa pindex pte (cow_copy npa pte s)) := by
  simp only [copy_on_write, hns, hW, get_rmap, hcnt, if_true, if_false]

theorem cow_new_entry (npa pindex pte : Nat) (s : KState) :
    (add_pte npa pindex pte (cow_copy npa pte s)).mem pte =
      (npa ||| PTE_FLAGS (s.mem pte)) ||| PTE_W := by
  simp [add_pte, cow_copy, memmove]

/-- C15 (scenario A): processes X (index `ix`, entry at `px`) and Y (index
`iy`, entry at `py`) share frame `f` with reference count 2, both entries
Present and not Writable. A write fault of X served with the new frame `n`
changes no page-table word but X's entry and no backpointer but X's: Y's entry
is unchanged, Y stays registered on `f`, whose reference count is now 1, Y's
rss is unchanged; the next write fault of Y is then served by promotion in
place, whatever the allocator would answer. -/
theorem copy_on_write_scenario_A (cfg : Config) (s : KState) (px py ix iy f n : Nat)
    (k : Option Nat)
    (hix : ix ≠ iy) (hpx : px ≠ py)
    (hregx : s.ptes f ix = px) (hregy : s.ptes f iy = py) (hpx0 : px ≠ 0)
    (hcnt : s.rmap f = 2)
    (hxP : s.mem px &&& PTE_P ≠ 0) (hxW : s.mem px &&& PTE_W = 0)
    (hxf : PTE_ADDR (s.mem px) >>> 12 = f)
    (hyP : s.mem py &&& PTE_P ≠ 0) (hyW : s.mem py &&& PTE_W = 0)
    (hyf : PTE_ADDR (s.mem py) >>> 12 = f)
    (hne : n ≠ f) :
    ∃ s1, copy_on_write cfg px ix (some (n * 4096)) s = .ok s1 ∧
      (∀ a, a ≠ px → s1.mem a = s.mem a) ∧
      s1.mem py = s.mem py ∧
      (∀ g i, i ≠ ix → s1.ptes g i = s.ptes g i) ∧
      s1.ptes f iy = py ∧
      s1.rmap f = 1 ∧
      s1.rss iy = s.rss iy ∧
      s1.swap_slots = s.swap_slots ∧
      copy_on_write cfg py iy k s1 =
        .ok { s1 with mem := Function.update s1.mem py (s1.mem py ||| PTE_W) } := by
  subst hxf
  have hns : ¬ (s.mem px &&& cfg.PTE_S ≠ 0 ∧ s.mem px &&& PTE_P = 0) := fun h => hxP h.2
  have hc : s.rmap (PTE_ADDR (s.mem px) >>> 12) ≠ 1 := by rw [hcnt]; decide
  have hP2 : (add_pte (n * 4096) ix px (cow_copy (n * 4096) px s)).mem px &&& PTE_P ≠ 0 := by
    rw [cow_new_entry, cow_entry_P]; exact hxP
  have heq := copy_on_write_dup_eq cfg s px ix (n * 4096) hxW hns hc
  rw [if_pos hP2] at heq
  have hfn : PTE_ADDR (s.mem px) >>> 12 ≠ n := fun h => hne h.symm
  have hreg2 : (add_pte (n * 4096) ix px (cow_copy (n * 4096) px s)).ptes
      (PTE_ADDR (s.mem px) >>> 12) ix ≠ 0 := by
    simp only [add_pte, cow_copy, memmove, frame_shift, Function.update_noteq hfn]
    rw [hregx]; exact hpx0
  have hm : ∀ a, a ≠ px →
      (sub_pte (PTE_ADDR (s.mem px)) ix
        (add_pte (n * 4096) ix px (cow_copy (n * 4096) px s))).mem a = s.mem a := by
    intro a ha
    simp only [sub_pte, hreg2, if_false]
    simp [add_pte, cow_copy, memmove, Function.update_noteq ha]
  have hr : (sub_pte (PTE_ADDR (s.mem px)) ix
      (add_pte (n * 4096) ix px (cow_copy (n * 4096) px s))).rmap
        (PTE_ADDR (s.mem px) >>> 12) = 1 := by
    simp only [sub_pte, hreg2, if_false]
    simp [add_pte, cow_copy, memmove, frame_shift, Function.update_noteq hfn, hcnt]
  refine ⟨_, heq, hm, hm py (fun h => hpx h.symm), ?_, ?_, hr, ?_, ?_, ?_⟩
  · intro g i hi
    simp only [sub_pte, hreg2, if_false]
    simp only [add_pte, cow_copy, memmove, frame_shift, Function.update_apply]
    split_ifs <;> simp_all
  · simp only [sub_pte, hreg2, if_false]
    simp only [add_pte, cow_copy, memmove, frame_shift, Function.update_same,
      Function.update_noteq hix.symm, Function.update_noteq hfn]
    exact hregy
  · simp only [sub_pte, hreg2, if_false]
    simp [add_pte, cow_copy, memmove, Function.update_noteq hix.symm]
  · simp only [sub_pte, hreg2, if_false]
    rfl
  · apply copy_on_write_promote_eq
    · rw [hm py (fun h => hpx h.symm)]; exact hyW
    · rw [hm py (fun h => hpx h.symm)]; exact fun h => hyP h.2
    · rw [hm py (fun h => hpx h.symm), hyf]; exact hr

/-- Instance of C15 on `shared_state`: process 0 writes first, process 1
afterwards. -/
theorem copy_on_write_scenario_A_witness :
    ∃ s1, copy_on_write cfg0 100 0 (some (7 * 4096)) shared_state = .ok s1 ∧
      s1.mem 200 = 0x5025 ∧ s1.ptes 5 1 = 200 ∧ s1.rmap 5 = 1 ∧ s1.rss 1 = 4096 ∧
      copy_on_write cfg0 200 1 none s1 =
        .ok { s1 with mem := Function.update s1.mem 200 (s1.mem 200 ||| PTE_W) } := by
  obtain ⟨s1, h0, _, h2, _, h4, h5, h6, _, h8⟩ :=
    copy_on_write_scenario_A cfg0 shared_state 100 200 0 1 5 7 none (by decide) (by decide)
      (by decide) (by decide) (by decide) (by decide) (by decide) (by decide) (by decide)
      (by decide) (by decide) (by decide) (by decide)
  exact ⟨s1, h0, h2, h4, h5, h6, h8⟩

/-! ## C19 -/

theorem copy_on_write_slots (cfg : Config) (s s' : KState) (pte pindex : Nat)
    (kalloc : Option Nat) (hS4 : cfg.PTE_S < 4096) (hSW : cfg.PTE_S &&& PTE_W = 0)
    (hal : ∀ npa, kalloc = some npa → npa % 4096 = 0)
    (hnd : ¬ (s.mem pte &&& cfg.PTE_S ≠ 0 ∧ s.mem pte &&& PTE_P = 0))
    (ho : copy_on_write cfg pte pindex kalloc s = .ok s') :
    s'.swap_slots = s.swap_slots := by
  by_cases hW : s.mem pte &&& PTE_W = 0
  · by_cases hc : s.rmap (PTE_ADDR (s.mem pte) >>> 12) = 1
    · rw [copy_on_write_promote_eq cfg s pte pindex kalloc hW hnd hc] at ho
      rw [← Except.ok.inj ho]
    · cases kalloc with
      | none => simp [copy_on_write, hnd, hW, get_rmap, hc] at ho
      | some npa =>
        rw [copy_on_write_dup_eq cfg s pte pindex npa hW hnd hc] at ho
        have hn : npa = npa / 4096 * 4096 := by
          have := hal npa rfl
          omega
        by_cases hP : s.mem pte &&& PTE_P = 0
        · have hS : s.mem pte &&& cfg.PTE_S = 0 := by
            by_contra h; exact hnd ⟨h, hP⟩
          have h1 : ¬ ((add_pte npa pindex pte (cow_copy npa pte s)).mem pte &&& PTE_P ≠ 0) := by
            rw [cow_new_entry, hn, cow_entry_P]; simp [hP]
          have h2 : ¬ ((add_pte npa pindex pte (cow_copy npa pte s)).mem pte &&&
              cfg.PTE_S ≠ 0) := by
            rw [cow_new_entry, hn, cow_entry_S _ _ _ hS4 hSW]; simp [hS]
          rw [if_neg h1, if_neg h2] at ho
          rw [← Except.ok.inj ho]; rfl
        · have h1 : (add_pte npa pindex pte (cow_copy npa pte s)).mem pte &&& PTE_P ≠ 0 := by
            rw [cow_new_entry, hn, cow_entry_P]; exact hP
          rw [if_pos h1] at ho
          rw [← Except.ok.inj ho]
          unfold sub_pte
          split_ifs <;> rfl
  · simp [copy_on_write, hnd, hW] at ho

/-- C19: the swap-slot detach of copy_on_write's duplication branch is
unreachable. For every entry value that reaches the branch (not Swapped and
not Present at once) and every page-aligned new page, the rewritten entry has
Present set or Swapped clear; so when the handler does not delegate to swap_in
it returns either the state after the frame detach or the state after the
attach alone, and it leaves every swap slot unchanged. The Swapped flag is a
flag distinct from Writable. -/
theorem copy_on_write_freeslot_unreachable (cfg : Config) (s : KState) (pte pindex : Nat)
    (kalloc : Option Nat)
    (hwf : flags_wf cfg) (hSW : cfg.PTE_S &&& PTE_W = 0)
    (hal : ∀ npa, kalloc = some npa → npa % 4096 = 0)
    (hnd : ¬ (s.mem pte &&& cfg.PTE_S ≠ 0 ∧ s.mem pte &&& PTE_P = 0)) :
    (∀ e npa, npa % 4096 = 0 → ¬ (e &&& cfg.PTE_S ≠ 0 ∧ e &&& PTE_P = 0) →
      ((npa ||| PTE_FLAGS e) ||| PTE_W) &&& PTE_P ≠ 0 ∨
      ((npa ||| PTE_FLAGS e) ||| PTE_W) &&& cfg.PTE_S = 0) ∧
    (∀ npa, kalloc = some npa → s.mem pte &&& PTE_W = 0 →
      s.rmap (PTE_ADDR (s.mem pte) >>> 12) ≠ 1 →
      copy_on_write cfg pte pindex kalloc s =
        if s.mem pte &&& PTE_P ≠ 0 then
          .ok (sub_pte (PTE_ADDR (s.mem pte)) pindex
                (add_pte npa pindex pte (cow_copy npa pte s)))
        else .ok (add_pte npa pindex pte (cow_copy npa pte s))) ∧
    (∀ s', copy_on_write cfg pte pindex kalloc s = .ok s' →
      s'.swap_slots = s.swap_slots) := by
  obtain ⟨_, hS4, _⟩ := hwf
  refine ⟨?_, ?_, ?_⟩
  · intro e npa hn hne
    have hn2 : npa = npa / 4096 * 4096 := by omega
    rw [hn2, cow_entry_P, cow_entry_S _ _ _ hS4 hSW]
    by_cases hP : e &&& PTE_P = 0
    · right
      by_contra h; exact hne ⟨h, hP⟩
    · left; exact hP
  · intro npa hk hW hc
    subst hk
    rw [copy_on_write_dup_eq cfg s pte pindex npa hW hnd hc]
    have hn : npa = npa / 4096 * 4096 := by
      have := hal npa rfl
      omega
    have e1 : (add_pte npa pindex pte (cow_copy npa pte s)).mem pte &&& PTE_P =
        s.mem pte &&& PTE_P := by
      rw [cow_new_entry, hn, cow_entry_P]
    have e2 : (add_pte npa pindex pte (cow_copy npa pte s)).mem pte &&& cfg.PTE_S =
        s.mem pte &&& cfg.PTE_S := by
      rw [cow_new_entry, hn, cow_entry_S _ _ _ hS4 hSW]
    rw [e1, e2]
    by_cases hP : s.mem pte &&& PTE_P = 0
    · have hS : s.mem pte &&& cfg.PTE_S = 0 := by
        by_contra h; exact hnd ⟨h, hP⟩
      simp [hP, hS]
    · simp [hP]
  · intro s' ho
    exact copy_on_write_slots cfg s s' pte pindex kalloc hS4 hSW hal hnd ho

/-- Instance of C19 on `shared_state`: the write fault of process 0 ends with
the frame detach and leaves the slot pool as it was. -/
theorem copy_on_write_freeslot_unreachable_witness :
    copy_on_write cfg0 100 0 (some (7 * 4096)) shared_state = .ok duplicated_state ∧
    duplicated_state.swap_slots = shared_state.swap_slots := by
  obtain ⟨_, h2, h3⟩ :=
    copy_on_write_freeslot_unreachable cfg0 shared_state 100 0 (some (7 * 4096)) flags_wf_cfg0
      (by decide) (by intro npa hk; cases hk; decide) (by decide)
  have h := h2 (7 * 4096) rfl (by decide) (by decide)
  rw [if_pos (by decide)] at h
  exact ⟨h, h3 _ h⟩

/-! ## C18 -/

theorem count_ptes_update (col : Nat → Nat) (j v n : Nat) (h : j < n) :
    (count_ptes (Function.update col j v) n : Int) =
      (count_ptes col n : Int) - (if col j ≠ 0 then 1 else 0) + (if v ≠ 0 then 1 else 0) := by
  by_cases hc : col j = 0
  · by_cases hv : v = 0
    · have : Function.update col j v = col := by
        rw [hv, ← hc]; exact Function.update_eq_self j col
      rw [this]; simp [hc, hv]
    · rw [count_ptes_update_add col j v n h hc hv]
      simp [hc, hv]
  · have h1 := count_ptes_update_sub col j n h hc
    by_cases hv : v = 0
    · rw [hv]
      simp only [hc, ne_eq, not_false_eq_true, if_true, not_true_eq_false, if_false]
      omega
    · have h2 := count_ptes_update_add (Function.update col j 0) j v n h (by simp) hv
      rw [Function.update_idem] at h2
      simp only [hc, hv, ne_eq, not_false_eq_true, if_true]
      omega

theorem rss_inv_row (nframes : Nat) (s s' : KState) (f : Nat) (hf : f < nframes)
    (hinv : rss_inv nframes s)
    (hp : ∀ g i, g ≠ f → s'.ptes g i = s.ptes g i)
    (hr : ∀ i, s'.rss i = s.rss i - (if s.ptes f i ≠ 0 then (PGSIZE : Int) else 0)
                            + (if s'.ptes f i ≠ 0 then (PGSIZE : Int) else 0)) :
    rss_inv nframes s' := by
  intro i
  have hcol : (fun g => s'.ptes g i) = Function.update (fun g => s.ptes g i) f (s'.ptes f i) := by
    funext g
    by_cases hg : g = f
    · subst hg; simp
    · rw [Function.update_noteq hg]; exact hp g i hg
  rw [hcol, count_ptes_update _ f _ nframes hf, hr i, hinv i]
  unfold PGSIZE
  by_cases h1 : s.ptes f i = 0 <;> by_cases h2 : s'.ptes f i = 0 <;> simp [h1, h2] <;> ring

theorem rss_inv_congr (nframes : Nat) (s s' : KState) (hinv : rss_inv nframes s)
    (hp : s'.ptes = s.ptes) (hr : s'.rss = s.rss) : rss_inv nframes s' := by
  intro i
  rw [hp, hr]; exact hinv i

theorem rss_inv_add_pte (nframes : Nat) (s : KState) (pa index pte : Nat)
    (hf : pa >>> 12 < nframes) (h0 : s.ptes (pa >>> 12) index = 0) (hpte : pte ≠ 0)
    (hinv : rss_inv nframes s) : rss_inv nframes (add_pte pa index pte s) := by
  apply rss_inv_row nframes s _ (pa >>> 12) hf hinv
  · intro g i hg
    simp [add_pte, Function.update_noteq hg]
  · intro i
    by_cases hi : i = index
    · subst hi
      simp [add_pte, h0, hpte]
    · simp [add_pte, Function.update_noteq hi]

theorem rss_inv_sub_pte (nframes : Nat) (s : KState) (pa index : Nat)
    (hf : pa >>> 12 < nframes) (hinv : rss_inv nframes s) :
    rss_inv nframes (sub_pte pa index s) := by
  by_cases h0 : s.ptes (pa >>> 12) index = 0
  · simp only [sub_pte, h0, if_true]; exact hinv
  · apply rss_inv_row nframes s _ (pa >>> 12) hf hinv
    · intro g i hg
      simp [sub_pte, h0, Function.update_noteq hg]
    · intro i
      by_cases hi : i = index
      · subst hi
        simp [sub_pte, h0]
      · simp [sub_pte, h0, Function.update_noteq hi]

theorem rss_inv_swap_out (cfg : Config) (nframes : Nat) (s s' : KState) (pte : Nat)
    (junk : Page) (hf : PTE_ADDR (s.mem pte) >>> 12 < nframes) (hinv : rss_inv nframes s)
    (ho : swap_out cfg pte junk s = .ok s') : rss_inv nframes s' := by
  cases hfind : find_free_swap_slot cfg s with
  | error e => simp [swap_out, hfind] at ho
  | ok sidx =>
    obtain ⟨s1, h0, _, _, _, _, _, _, _, _, _, f10, f11, _, _⟩ :=
      swap_out_facts cfg s pte junk sidx hfind
    have hs : s' = s1 := Except.ok.inj (ho.symm.trans h0)
    subst hs
    apply rss_inv_row nframes s _ (PTE_ADDR (s.mem pte) >>> 12) hf hinv
    · intro g i hg
      rw [f10]; simp [hg]
    · intro i
      rw [f10, f11]
      by_cases hi : i < cfg.NPROC
      · by_cases hp : s.ptes (PTE_ADDR (s.mem pte) >>> 12) i = 0
        · simp [hi, hp]
        · simp [hi, hp]
      · simp [hi]

theorem rss_inv_swap_in (cfg : Config) (nframes : Nat) (s s' : KState) (pte : Nat)
    (kalloc : Option Nat) (hf : V2P_newpage kalloc >>> 12 < nframes)
    (hfresh : ∀ i, i < cfg.NPROC → s.ptes (V2P_newpage kalloc >>> 12) i = 0)
    (hinv : rss_inv nframes s)
    (ho : swap_in cfg pte kalloc s = .ok s') : rss_inv nframes s' := by
  have hS : s.mem pte &&& cfg.PTE_S ≠ 0 := by
    intro h0
    simp [swap_in, h0] at ho
  obtain ⟨s2, g0, _, _, _, _, _, _, _, _, _, g10, g11, _, _⟩ := swap_in_eq cfg s pte kalloc hS
  have hs : s' = s2 := Except.ok.inj (ho.symm.trans g0)
  subst hs
  apply rss_inv_row nframes s _ (V2P_newpage kalloc >>> 12) hf hinv
  · intro g i hg
    rw [g10]; simp [hg]
  · intro i
    rw [g10, g11]
    by_cases hi : i < cfg.NPROC
    · by_cases hp : (s.swap_slots (s.mem pte >>> 12)).ptes i = 0
      · simp [hi, hp, hfresh i hi]
      · simp [hi, hp, hfresh i hi]
    · simp [hi]

theorem rss_inv_copy_on_write (cfg : Config) (nframes : Nat) (s s' : KState)
    (pte pindex : Nat) (kalloc : Option Nat)
    (hpte : pte ≠ 0) (hpi : pindex < cfg.NPROC)
    (hold : PTE_ADDR (s.mem pte) >>> 12 < nframes)
    (hf : V2P_newpage kalloc >>> 12 < nframes)
    (hfresh : ∀ i, i < cfg.NPROC → s.ptes (V2P_newpage kalloc >>> 12) i = 0)
    (hinv : rss_inv nframes s)
    (ho : copy_on_write cfg pte pindex kalloc s = .ok s') : rss_inv nframes s' := by
  by_cases hd : s.mem pte &&& cfg.PTE_S ≠ 0 ∧ s.mem pte &&& PTE_P = 0
  · rw [copy_on_write_delegates cfg s pte pindex kalloc hd] at ho
    exact rss_inv_swap_in cfg nframes s s' pte kalloc hf hfresh hinv ho
  · by_cases hW : s.mem pte &&& PTE_W = 0
    · by_cases hc : s.rmap (PTE_ADDR (s.mem pte) >>> 12) = 1
      · rw [copy_on_write_promote_eq cfg s pte pindex kalloc hW hd hc] at ho
        rw [← Except.ok.inj ho]
        exact rss_inv_congr nframes s _ hinv rfl rfl
      · cases kalloc with
        | none => simp [copy_on_write, hd, hW, get_rmap, hc] at ho
        | some npa =>
          rw [copy_on_write_dup_eq cfg s pte pindex npa hW hd hc] at ho
          have h3 : rss_inv nframes (add_pte npa pindex pte (cow_copy npa pte s)) := by
            apply rss_inv_add_pte nframes _ npa pindex pte hf _ hpte
            · exact rss_inv_congr nframes s _ hinv rfl rfl
            · exact hfresh pindex hpi
          split_ifs at ho
          · rw [← Except.ok.inj ho]
            exact rss_inv_sub_pte nframes _ _ pindex hold h3
          · rw [← Except.ok.inj ho]
            exact rss_inv_congr nframes _ _ h3 rfl rfl
          · rw [← Except.ok.inj ho]
            exact h3
    · simp [copy_on_write, hd, hW] at ho

/-- C18: resident-set accounting. The invariant "for every process, rss is one
page times the number of frames whose backpointer row holds a non-null entry
for that process" is kept by add_pte (process not yet registered on the frame,
non-null location), by sub_pte, by swap_out, by swap_in and by copy_on_write,
the frames involved being frames of the table and every freshly allocated
frame having an empty backpointer row; and a duplication by a registered,
Present sharer leaves that process's rss unchanged. -/
theorem rss_accounting (cfg : Config) (nframes : Nat) (s : KState)
    (hinv : rss_inv nframes s) :
    (∀ pa index pte, pa >>> 12 < nframes → s.ptes (pa >>> 12) index = 0 → pte ≠ 0 →
      rss_inv nframes (add_pte pa index pte s)) ∧
    (∀ pa index, pa >>> 12 < nframes → rss_inv nframes (sub_pte pa index s)) ∧
    (∀ pte junk s', PTE_ADDR (s.mem pte) >>> 12 < nframes →
      swap_out cfg pte junk s = .ok s' → rss_inv nframes s') ∧
    (∀ pte kalloc s', V2P_newpage kalloc >>> 12 < nframes →
      (∀ i, i < cfg.NPROC → s.ptes (V2P_newpage kalloc >>> 12) i = 0) →
      swap_in cfg pte kalloc s = .ok s' → rss_inv nframes s') ∧
    (∀ pte pindex kalloc s', pte ≠ 0 → pindex < cfg.NPROC →
      PTE_ADDR (s.mem pte) >>> 12 < nframes → V2P_newpage kalloc >>> 12 < nframes →
      (∀ i, i < cfg.NPROC → s.ptes (V2P_newpage kalloc >>> 12) i = 0) →
      copy_on_write cfg pte pindex kalloc s = .ok s' → rss_inv nframes s') ∧
    (∀ pte pindex n s', s.mem pte &&& PTE_P ≠ 0 → s.mem pte &&& PTE_W = 0 →
      s.rmap (PTE_ADDR (s.mem pte) >>> 12) ≠ 1 →
      s.ptes (PTE_ADDR (s.mem pte) >>> 12) pindex ≠ 0 → s.ptes n pindex = 0 →
      copy_on_write cfg pte pindex (some (n * 4096)) s = .ok s' →
      s'.rss pindex = s.rss pindex) := by
  refine ⟨?_, ?_, ?_, ?_, ?_, ?_⟩
  · intro pa index pte hf h0 hp
    exact rss_inv_add_pte nframes s pa index pte hf h0 hp hinv
  · intro pa index hf
    exact rss_inv_sub_pte nframes s pa index hf hinv
  · intro pte junk s' hf ho
    exact rss_inv_swap_out cfg nframes s s' pte junk hf hinv ho
  · intro pte kalloc s' hf hfresh ho
    exact rss_inv_swap_in cfg nframes s s' pte kalloc hf hfresh hinv ho
  · intro pte pindex kalloc s' hpte hpi hold hf hfresh ho
    exact rss_inv_copy_on_write cfg nframes s s' pte pindex kalloc hpte hpi hold hf hfresh
      hinv ho
  · intro pte pindex n s' hP hW hc hreg hfr ho
    have hns : ¬ (s.mem pte &&& cfg.PTE_S ≠ 0 ∧ s.mem pte &&& PTE_P = 0) := fun h => hP h.2
    have hP2 : (add_pte (n * 4096) pindex pte (cow_copy (n * 4096) pte s)).mem pte &&& PTE_P
        ≠ 0 := by
      rw [cow_new_entry, cow_entry_P]; exact hP
    rw [copy_on_write_dup_eq cfg s pte pindex (n * 4096) hW hns hc, if_pos hP2] at ho
    rw [← Except.ok.inj ho]
    have hne : PTE_ADDR (s.mem pte) >>> 12 ≠ n := by
      intro h; rw [h] at hreg; exact hreg hfr
    have hreg2 : (add_pte (n * 4096) pindex pte (cow_copy (n * 4096) pte s)).ptes
        (PTE_ADDR (s.mem pte) >>> 12) pindex ≠ 0 := by
      simp only [add_pte, cow_copy, memmove, frame_shift, Function.update_noteq hne]
      exact hreg
    simp only [sub_pte, hreg2, if_false]
    simp [add_pte, cow_copy, memmove]

theorem rss_inv_shared_state : rss_inv 8 shared_state := by
  intro i
  by_cases h0 : i = 0
  · subst h0; decide
  · by_cases h1 : i = 1
    · subst h1; decide
    · simp [shared_state, count_ptes, h0, h1]

theorem copy_on_write_shared_state :
    copy_on_write cfg0 100 0 (some (7 * 4096)) shared_state = .ok duplicated_state := by
  rw [copy_on_write_dup_eq cfg0 shared_state 100 0 (7 * 4096) (by decide) (by decide)
    (by decide), if_pos (by decide)]
  rfl

/-- Instance of C18 on `shared_state` (8 frames): after the swap-out of frame
5, and after the write fault of process 0 served by duplication. -/
theorem rss_accounting_witness :
    rss_inv 8 swapped_state ∧ rss_inv 8 duplicated_state ∧
    duplicated_state.rss 0 = 4096 := by
  obtain ⟨_, _, h3, _, h5, h6⟩ := rss_accounting cfg0 8 shared_state rss_inv_shared_state
  refine ⟨h3 100 [] swapped_state (by decide) rfl, ?_, ?_⟩
  · exact h5 100 0 (some (7 * 4096)) duplicated_state (by decide) (by decide) (by decide)
      (by decide) (by decide) copy_on_write_shared_state
  · exact h6 100 0 7 duplicated_state (by decide) (by decide) (by decide) (by decide)
      (by decide) copy_on_write_shared_state

/-! ## C16 -/

theorem victim_scan_spec (l : List proc) (best : Option proc) (r : proc)
    (hbest : ∀ b, best = some b → b.live = true)
    (h : victim_scan best l = some r) :
    r.live = true ∧ (r ∈ l ∨ best = some r) ∧
    (∀ b, best = some b → b.rss ≤ r.rss ∧ (b.rss = r.rss → r.pid ≤ b.pid)) ∧
    (∀ q, q ∈ l → q.live = true → q.rss ≤ r.rss ∧ (q.rss = r.rss → r.pid ≤ q.pid)) := by
  induction l generalizing best with
  | nil =>
    simp only [victim_scan] at h
    refine ⟨hbest r h, Or.inr h, ?_, ?_⟩
    · intro b hb
      rw [h] at hb
      cases hb
      exact ⟨le_refl _, fun _ => le_refl _⟩
    · intro q hq
      cases hq
  | cons p rest ih =>
    simp only [victim_scan] at h
    by_cases hp : p.live = true
    · simp only [hp, if_true] at h
      cases hb : best with
      | none =>
        simp only [hb] at h
        obtain ⟨i1, i2, i3, i4⟩ := ih (some p) (by intro b e; cases e; exact hp) h
        refine ⟨i1, ?_, ?_, ?_⟩
        · rcases i2 with i2 | i2
          · exact Or.inl (List.mem_cons_of_mem _ i2)
          · cases i2; exact Or.inl (List.mem_cons_self _ _)
        · intro b e; cases e
        · intro q hq hql
          rcases List.mem_cons.1 hq with hq | hq
          · subst hq; exact i3 q rfl
          · exact i4 q hq hql
      | some b =>
        simp only [hb] at h
        have hbl : b.live = true := hbest b hb
        by_cases hbt : victim_better p b = true
        · simp only [hbt, if_true] at h
          obtain ⟨i1, i2, i3, i4⟩ := ih (some p) (by intro c e; cases e; exact hp) h
          have hpr := i3 p rfl
          simp only [victim_better, Bool.or_eq_true, Bool.and_eq_true, decide_eq_true_eq] at hbt
          refine ⟨i1, ?_, ?_, ?_⟩
          · rcases i2 with i2 | i2
            · exact Or.inl (List.mem_cons_of_mem _ i2)
            · cases i2; exact Or.inl (List.mem_cons_self _ _)
          · intro c e
            cases e
            constructor
            · omega
            · intro e2; omega
          · intro q hq hql
            rcases List.mem_cons.1 hq with hq | hq
            · subst hq; exact hpr
            · exact i4 q hq hql
        · simp only [hbt, if_false] at h
          obtain ⟨i1, i2, i3, i4⟩ := ih (some b) (by intro c e; cases e; exact hbl) h
          have hbr := i3 b rfl
          simp only [victim_better, Bool.or_eq_true, Bool.and_eq_true, decide_eq_true_eq,
            not_or, not_and, not_lt] at hbt
          refine ⟨i1, ?_, ?_, ?_⟩
          · rcases i2 with i2 | i2
            · exact Or.inl (List.mem_cons_of_mem _ i2)
            · exact Or.inr i2
          · intro c e
            cases e
            exact hbr
          · intro q hq hql
            rcases List.mem_cons.1 hq with hq | hq
            · subst hq
              constructor
              · omega
              · intro e2
                have := hbt.2 (by omega)
                omega
            · exact i4 q hq hql
    · simp only [hp, if_false] at h
      obtain ⟨i1, i2, i3, i4⟩ := ih best hbest h
      refine ⟨i1, ?_, i3, ?_⟩
      · rcases i2 with i2 | i2
        · exact Or.inl (List.mem_cons_of_mem _ i2)
        · exact Or.inr i2
      · intro q hq hql
        rcases List.mem_cons.1 hq with hq | hq
        · subst hq; exact absurd hql hp
        · exact i4 q hq hql

theorem victim_scan_some (l : List proc) (b : proc) : ∃ r, victim_scan (some b) l = some r := by
  induction l generalizing b with
  | nil => exact ⟨b, rfl⟩
  | cons p rest ih =>
    simp only [victim_scan]
    by_cases hp : p.live = true
    · simp only [hp, if_true]
      by_cases hbt : victim_better p b = true
      · simp only [hbt, if_true]; exact ih p
      · simp only [hbt, if_false]; exact ih b
    · simp only [hp, if_false]; exact ih b

theorem victim_scan_none (l : List proc) (h : ∃ q, q ∈ l ∧ q.live = true) :
    ∃ r, victim_scan none l = some r := by
  induction l with
  | nil => obtain ⟨q, hq, _⟩ := h; cases hq
  | cons p rest ih =>
    simp only [victim_scan]
    by_cases hp : p.live = true
    · simp only [hp, if_true]; exact victim_scan_some rest p
    · simp only [hp, if_false]
      apply ih
      obtain ⟨q, hq, hql⟩ := h
      rcases List.mem_cons.1 hq with hq | hq
      · subst hq; exact absurd hql hp
      · exact ⟨q, hq, hql⟩

/-- C16: victim process selection. Whenever the table holds a live process,
find_victim_proc returns one; the process returned is a live process of the
table with the largest rss among the live processes and, among the live
processes of that same rss, the smallest process identifier. -/
theorem find_victim_proc_spec (ptable : List proc) :
    ((∃ q, q ∈ ptable ∧ q.live = true) → ∃ p, find_victim_proc ptable = some p) ∧
    (∀ p, find_victim_proc ptable = some p →
      p ∈ ptable ∧ p.live = true ∧
      ∀ q, q ∈ ptable → q.live = true →
        q.rss ≤ p.rss ∧ (q.rss = p.rss → p.pid ≤ q.pid)) := by
  refine ⟨victim_scan_none ptable, ?_⟩
  intro p hp
  obtain ⟨h1, h2, _, h4⟩ := victim_scan_spec ptable none p (by intro b e; cases e) hp
  refine ⟨?_, h1, h4⟩
  rcases h2 with h2 | h2
  · exact h2
  · cases h2

/-- Instance of C16 on `ptable0`: the processes 3 and 2 have the largest rss
among the live ones, process 2 is chosen; the unused entry with the larger rss
is ignored. -/
theorem find_victim_proc_spec_witness :
    ∃ p, find_victim_proc ptable0 = some p ∧ p.pid = 2 ∧ p.rss = 8192 := by
  obtain ⟨p, hp⟩ := (find_victim_proc_spec ptable0).1 ⟨_, List.mem_cons_self _ _, rfl⟩
  refine ⟨p, hp, ?_⟩
  have h : find_victim_proc ptable0 = some { pid := 2, rss := 8192, live := true } := rfl
  rw [h] at hp
  cases hp
  exact ⟨rfl, rfl⟩

/-! ## C20 -/

theorem swap_out_loop_mem_other (cfg : Config) (f sidx index n : Nat) (s : KState) (a : Nat)
    (ha : ∀ i, i < n → s.ptes f i ≠ 0 → s.ptes f i ≠ a) :
    (swap_out_loop cfg f sidx index n s).mem a = s.mem a := by
  induction n with
  | zero => simp [swap_out_loop]
  | succ k ih =>
    simp only [swap_out_loop, swap_out_step_mem, swap_out_loop_ptes_self]
    have ih2 := ih (fun i hi => ha i (by omega))
    by_cases hpk : s.ptes f k = 0
    · simp [hpk, ih2]
    · simp only [hpk, ne_eq, not_false_eq_true, if_true]
      have hk := ha k (by omega) hpk
      rw [Function.update_noteq (fun e => hk e.symm), ih2]

theorem swap_in_loop_mem_other (cfg : Config) (npa index n : Nat) (s : KState) (a : Nat)
    (ha : ∀ i, i < n → (s.swap_slots index).ptes i ≠ 0 → (s.swap_slots index).ptes i ≠ a) :
    (swap_in_loop cfg npa index n s).mem a = s.mem a := by
  induction n with
  | zero => simp [swap_in_loop]
  | succ k ih =>
    simp only [swap_in_loop, swap_in_step_mem, (swap_in_loop_other cfg npa index k s).2.2.2]
    have ih2 := ih (fun i hi => ha i (by omega))
    by_cases hpk : (s.swap_slots index).ptes k = 0
    · simp [hpk, ih2]
    · simp only [hpk, ne_eq, not_false_eq_true, if_true]
      have hk := ha k (by omega) hpk
      rw [Function.update_noteq (fun e => hk e.symm), ih2]

theorem demand_paging_swap_out_eq (cfg : Config) (s : KState) (pindex pte : Nat)
    (junk : Page) (sidx : Nat) (hfind : find_free_swap_slot cfg s = .ok sidx) :
    ∃ s2, DemandPaging.swap_out cfg pindex pte junk s = .ok s2 ∧
      s2.mem = Function.update s.mem pte
        (swapped_entry cfg (GETIDX (s.swap_slots sidx).addr) (PTE_FLAGS (s.mem pte))) ∧
      s2.rss = Function.update s.rss pindex (s.rss pindex - PGSIZE) ∧
      s2.disk = Function.update s.disk (s.swap_slots sidx).addr
                  (s.frames (PTE_ADDR (s.mem pte) >>> 12)) ∧
      s2.frames = Function.update s.frames (PTE_ADDR (s.mem pte) >>> 12) junk ∧
      (s2.swap_slots sidx).is_free = 0 ∧
      (s2.swap_slots sidx).page_perm = PTE_FLAGS (s.mem pte) ∧
      (s2.swap_slots sidx).addr = (s.swap_slots sidx).addr ∧
      (∀ j, j ≠ sidx → s2.swap_slots j = s.swap_slots j) := by
  have he : DemandPaging.swap_out cfg pindex pte junk s =
      .ok (DemandPaging.swap_out_body cfg pindex pte junk sidx s) := by
    simp only [DemandPaging.swap_out, hfind]
  refine ⟨_, he, ?_, rfl, rfl, rfl, ?_, ?_, ?_, ?_⟩
  · simp [DemandPaging.swap_out_body, writepage, kfree, swapped_entry]
  · simp [DemandPaging.swap_out_body, writepage, kfree]
  · simp [DemandPaging.swap_out_body, writepage, kfree]
  · simp [DemandPaging.swap_out_body, writepage, kfree]
  · intro j hj
    simp [DemandPaging.swap_out_body, writepage, kfree, Function.update_noteq hj]

theorem demand_paging_swap_in_eq (cfg : Config) (s : KState) (pindex pte : Nat)
    (kalloc : Option Nat) (hS : s.mem pte &&& cfg.PTE_S ≠ 0) :
    ∃ s2, DemandPaging.swap_in cfg pindex pte kalloc s = .ok s2 ∧
      s2.mem = Function.update s.mem pte
        (((PTE_ADDR (V2P_newpage kalloc)) ||| (s.swap_slots (s.mem pte >>> 12)).page_perm)
          ||| PTE_P) ∧
      s2.rss = Function.update s.rss pindex (s.rss pindex + PGSIZE) ∧
      s2.disk = s.disk ∧
      s2.frames = Function.update s.frames (V2P_newpage kalloc >>> 12)
                    (s.disk (s.swap_slots (s.mem pte >>> 12)).addr) ∧
      (s2.swap_slots (s.mem pte >>> 12)).is_free = 1 ∧
      (s2.swap_slots (s.mem pte >>> 12)).page_perm = 0 ∧
      (s2.swap_slots (s.mem pte >>> 12)).addr = (s.swap_slots (s.mem pte >>> 12)).addr ∧
      (∀ j, j ≠ s.mem pte >>> 12 → s2.swap_slots j = s.swap_slots j) := by
  have he : DemandPaging.swap_in cfg pindex pte kalloc s =
      .ok (DemandPaging.swap_in_body pindex pte (V2P_newpage kalloc) s) := by
    simp only [DemandPaging.swap_in, hS, if_false]
  refine ⟨_, he, ?_, rfl, rfl, rfl, ?_, ?_, ?_, ?_⟩
  · simp [DemandPaging.swap_in_body, readpage]
  · simp [DemandPaging.swap_in_body, readpage]
  · simp [DemandPaging.swap_in_body, readpage]
  · simp [DemandPaging.swap_in_body, readpage]
  · intro j hj
    simp [DemandPaging.swap_in_body, readpage, Function.update_noteq hj]

theorem restored_entry_no_S (S a perm : Nat) (hS : S < 4096) (hSP : S &&& PTE_P = 0)
    (hperm : perm < 4096) (hpS : perm &&& S = 0) :
    (((PTE_ADDR a) ||| perm) ||| PTE_P) &&& not32 S = ((PTE_ADDR a) ||| perm) ||| PTE_P := by
  apply Nat.eq_of_testBit_eq
  intro i
  have h0 := testBit_zero_of_and_P S hSP
  have hb : (perm.testBit i && S.testBit i) = false := by
    have := congrArg (fun x => Nat.testBit x i) hpS
    simpa [Nat.testBit_and] using this
  simp only [testBit_PTE_ADDR, Nat.testBit_and, Nat.testBit_or,
    testBit_not32 S _ (lt_trans hS (by decide)), testBit_PTE_P]
  by_cases hi : i < 12
  · have h1 : ¬ 12 ≤ i := by omega
    have h2 : i < 32 := by omega
    by_cases hi0 : i = 0
    · subst hi0; simp [h0]
    · cases hs : S.testBit i
      · simp [h1, h2, hi0]
      · rw [hs] at hb
        simp only [Bool.and_true] at hb
        simp [h1, hi0, hb]
  · have h3 := testBit_of_lt S 12 i (by simpa using hS) (by omega)
    have h4 := testBit_of_lt perm 12 i (by simpa using hperm) (by omega)
    have h5 : i ≠ 0 := by omega
    simp [h3, h4, h5]

/-- C20: in the unshared case the Copy-on-Write snapshot behaves as the Demand
Paging snapshot. When the victim frame's only backpointer is the victim's own
entry, both versions of swap_out leave the same page-table words (so the same
victim entry), the same occupancy and saved permissions of the slot, the same
disk and frame contents and the same rss. When the slot's only backpointer is
the faulting entry and its saved permissions are flag bits without the Swapped
bit, both versions of swap_in leave the same page-table words, the same
released slot (`is_free = 1`, `page_perm = 0`), the same contents and the same
rss. -/
theorem cow_refines_demand_paging (cfg : Config) (s : KState) (hwf : flags_wf cfg) :
    (∀ vidx vpte junk sidx, vpte ≠ 0 → vidx < cfg.NPROC →
      (∀ i, i < cfg.NPROC →
        s.ptes (PTE_ADDR (s.mem vpte) >>> 12) i = if i = vidx then vpte else 0) →
      find_free_swap_slot cfg s = .ok sidx →
      ∃ s1 s2, swap_out cfg vpte junk s = .ok s1 ∧
        DemandPaging.swap_out cfg vidx vpte junk s = .ok s2 ∧
        s1.mem = s2.mem ∧
        (s1.swap_slots sidx).is_free = (s2.swap_slots sidx).is_free ∧
        (s1.swap_slots sidx).page_perm = (s2.swap_slots sidx).page_perm ∧
        (s1.swap_slots sidx).addr = (s2.swap_slots sidx).addr ∧
        s1.disk = s2.disk ∧ s1.frames = s2.frames ∧ s1.rss = s2.rss) ∧
    (∀ pidx pte kalloc, pte ≠ 0 → pidx < cfg.NPROC → s.mem pte &&& cfg.PTE_S ≠ 0 →
      (∀ i, i < cfg.NPROC →
        (s.swap_slots (s.mem pte >>> 12)).ptes i = if i = pidx then pte else 0) →
      (s.swap_slots (s.mem pte >>> 12)).page_perm < 4096 →
      (s.swap_slots (s.mem pte >>> 12)).page_perm &&& cfg.PTE_S = 0 →
      ∃ s1 s2, swap_in cfg pte kalloc s = .ok s1 ∧
        DemandPaging.swap_in cfg pidx pte kalloc s = .ok s2 ∧
        s1.mem = s2.mem ∧
        (s1.swap_slots (s.mem pte >>> 12)).is_free = 1 ∧
        (s2.swap_slots (s.mem pte >>> 12)).is_free = 1 ∧
        (s1.swap_slots (s.mem pte >>> 12)).page_perm = 0 ∧
        (s2.swap_slots (s.mem pte >>> 12)).page_perm = 0 ∧
        s1.disk = s2.disk ∧ s1.frames = s2.frames ∧ s1.rss = s2.rss) := by
  obtain ⟨_, hS4, hSP⟩ := hwf
  constructor
  · intro vidx vpte junk sidx hv hvi hrow hfind
    obtain ⟨s1, h0, _, f2, f3, _, f5, f6, _, f8, _, _, f11, f12, _⟩ :=
      swap_out_facts cfg s vpte junk sidx hfind
    obtain ⟨s2, d0, d1, d2, d3, d4, d5, d6, d7, _⟩ :=
      demand_paging_swap_out_eq cfg s vidx vpte junk sidx hfind
    refine ⟨s1, s2, h0, d0, ?_, by rw [f5, d5], by rw [f6, d6], by rw [f8, d7],
      by rw [f2, d3], by rw [f3, d4], ?_⟩
    · funext a
      rw [d1]
      by_cases ha : a = vpte
      · subst ha
        have hh := f12 vidx hvi (by rw [hrow vidx hvi]; simpa using hv)
        rw [hrow vidx hvi] at hh
        simp only [if_true] at hh
        rw [hh]; simp
      · rw [Function.update_noteq ha]
        have hs := Except.ok.inj (h0.symm.trans (swap_out_eq cfg s vpte junk sidx hfind))
        obtain ⟨p1, p2, _⟩ := swap_out_prepare_fields cfg vpte junk sidx s
        rw [hs, swap_out_loop_mem_other, p2]
        intro i hi hne
        rw [p1] at hne ⊢
        rw [hrow i hi] at hne ⊢
        by_cases hiv : i = vidx
        · simp only [hiv, if_true]; exact fun e => ha e.symm
        · simp [hiv] at hne
    · funext i
      rw [f11, d2]
      by_cases hiv : i = vidx
      · subst hiv
        rw [hrow i hvi]; simp [hvi, hv]
      · rw [Function.update_noteq hiv]
        by_cases hi : i < cfg.NPROC
        · rw [hrow i hi]; simp [hiv]
        · simp [hi]
  · intro pidx pte kalloc hp hpi hS hrow hperm hpS
    obtain ⟨s1, g0, _, g2, g3, _, g5, g6, _, _, _, _, g11, g12, _⟩ :=
      swap_in_eq cfg s pte kalloc hS
    obtain ⟨s2, d0, d1, d2, d3, d4, d5, d6, _⟩ :=
      demand_paging_swap_in_eq cfg s pidx pte kalloc hS
    refine ⟨s1, s2, g0, d0, ?_, g5, d5, g6, d6, by rw [g2, d3], by rw [g3, d4], ?_⟩
    · funext a
      rw [d1]
      by_cases ha : a = pte
      · subst ha
        have hh := g12 pidx hpi (by rw [hrow pidx hpi]; simpa using hp)
        rw [hrow pidx hpi] at hh
        simp only [if_true] at hh
        rw [hh, Function.update_same]
        unfold restored_entry
        exact restored_entry_no_S _ _ _ hS4 hSP hperm hpS
      · rw [Function.update_noteq ha]
        have hs := Except.ok.inj (g0.symm.trans (swap_in_ok cfg s pte kalloc hS))
        rw [hs]
        have hm : (swap_in_finish cfg (V2P_newpage kalloc) (s.mem pte >>> 12)
            (swap_in_loop cfg (V2P_newpage kalloc) (s.mem pte >>> 12) cfg.NPROC
              (swap_in_start (V2P_newpage kalloc) (s.mem pte >>> 12) s))).mem a =
            (swap_in_loop cfg (V2P_newpage kalloc) (s.mem pte >>> 12) cfg.NPROC
              (swap_in_start (V2P_newpage kalloc) (s.mem pte >>> 12) s)).mem a := rfl
        rw [hm, swap_in_loop_mem_other]
        · rfl
        · intro i hi hne
          have e1 : (swap_in_start (V2P_newpage kalloc) (s.mem pte >>> 12) s).swap_slots =
              s.swap_slots := rfl
          rw [e1] at hne ⊢
          rw [hrow i hi] at hne ⊢
          by_cases hiv : i = pidx
          · simp only [hiv, if_true]; exact fun e => ha e.symm
          · simp [hiv] at hne
    · funext i
      rw [g11, d2]
      by_cases hiv : i = pidx
      · subst hiv
        rw [hrow i hpi]; simp [hpi, hp]
      · rw [Function.update_noteq hiv]
        by_cases hi : i < cfg.NPROC
        · rw [hrow i hi]; simp [hiv]
        · simp [hi]

/-- Instance of C20: the swap-out of the unshared frame 5 of `unshared_state`,
and the swap-in of the page of `unshared_swapped_state` into frame 7, by both
snapshots. -/
theorem cow_refines_demand_paging_witness :
    (∃ s1 s2, swap_out cfg0 100 [] unshared_state = .ok s1 ∧
      DemandPaging.swap_out cfg0 0 100 [] unshared_state = .ok s2 ∧
      s1.mem 100 = 0x204 ∧ s2.mem 100 = 0x204 ∧ s1.rss 0 = s2.rss 0) ∧
    (∃ t1 t2, swap_in cfg0 100 (some (7 * 4096)) unshared_swapped_state = .ok t1 ∧
      DemandPaging.swap_in cfg0 0 100 (some (7 * 4096)) unshared_swapped_state = .ok t2 ∧
      t1.mem 100 = 0x7005 ∧ t2.mem 100 = 0x7005 ∧ t1.rss 0 = t2.rss 0) := by
  constructor
  · obtain ⟨s1, s2, h1, h2, h3, _, _, _, _, _, h9⟩ :=
      (cow_refines_demand_paging cfg0 unshared_state flags_wf_cfg0).1 0 100 [] 0 (by decide)
        (by decide) (by decide) rfl
    have e2 : s2 = DemandPaging.swap_out_body cfg0 0 100 [] 0 unshared_state :=
      Except.ok.inj (h2.symm.trans rfl)
    have m2 : s2.mem 100 = 0x204 := by rw [e2]; decide
    exact ⟨s1, s2, h1, h2, by rw [h3]; exact m2, m2, by rw [h9]⟩
  · obtain ⟨t1, t2, h1, h2, h3, _, _, _, _, _, _, h10⟩ :=
      (cow_refines_demand_paging cfg0 unshared_swapped_state flags_wf_cfg0).2 0 100
        (some (7 * 4096)) (by decide) (by decide) (by decide) (by decide) (by decide)
        (by decide)
    have e2 : t2 = DemandPaging.swap_in_body 0 100 (7 * 4096) unshared_swapped_state :=
      Except.ok.inj (h2.symm.trans rfl)
    have m2 : t2.mem 100 = 0x7005 := by rw [e2]; decide
    exact ⟨t1, t2, h1, h2, by rw [h3]; exact m2, m2, by rw [h10]⟩

/-! ## The slot-pool invariant of C10 is kept by every operation -/

theorem free_inv_swapinit (cfg : Config) (s : KState) : free_inv cfg (swapinit cfg s) := by
  intro i hi _
  exact (swapinit_loop_apply cfg s.swap_slots (NSLOTS cfg) i hi).2.2.2

theorem free_inv_swap_out (cfg : Config) (s s' : KState) (pte : Nat) (junk : Page)
    (hinv : free_inv cfg s) (ho : swap_out cfg pte junk s = .ok s') : free_inv cfg s' := by
  cases hfind : find_free_swap_slot cfg s with
  | error e => simp [swap_out, hfind] at ho
  | ok sidx =>
    obtain ⟨s1, h0, _, _, _, f4, f5, _⟩ := swap_out_facts cfg s pte junk sidx hfind
    have hs : s' = s1 := Except.ok.inj (ho.symm.trans h0)
    subst hs
    intro i hi hfree
    by_cases hx : i = sidx
    · rw [hx, f5] at hfree
      exact absurd hfree (by decide)
    · rw [f4 i hx] at hfree ⊢
      exact hinv i hi hfree

theorem free_inv_copy_on_write (cfg : Config) (s s' : KState) (pte pindex : Nat)
    (kalloc : Option Nat) (hS4 : cfg.PTE_S < 4096) (hSW : cfg.PTE_S &&& PTE_W = 0)
    (hal : ∀ npa, kalloc = some npa → npa % 4096 = 0)
    (hinv : free_inv cfg s) (ho : copy_on_write cfg pte pindex kalloc s = .ok s') :
    free_inv cfg s' := by
  by_cases hd : s.mem pte &&& cfg.PTE_S ≠ 0 ∧ s.mem pte &&& PTE_P = 0
  · rw [copy_on_write_delegates cfg s pte pindex kalloc hd] at ho
    exact free_inv_swap_in cfg s s' pte kalloc hinv ho
  · intro i hi hfree
    rw [copy_on_write_slots cfg s s' pte pindex kalloc hS4 hSW hal hd ho] at hfree ⊢
    exact hinv i hi hfree

theorem free_inv_freeslot (cfg : Config) (s : KState) (k x : Nat)
    (hreg : 1 ≤ (s.swap_slots k).rmap) (hinv : free_inv cfg s) :
    free_inv cfg (freeslot k x s) := by
  intro i hi hfree
  by_cases hx : i = k
  · subst hx
    by_cases h : (s.swap_slots i).rmap - 1 ≤ 0
    · simp only [freeslot, h, if_true, Function.update_same]
      omega
    · simp only [freeslot, h, if_false, Function.update_same] at hfree
      have := hinv i hi hfree
      omega
  · simp only [freeslot, Function.update_noteq hx] at hfree ⊢
    exact hinv i hi hfree

theorem free_inv_addslot (cfg : Config) (s : KState) (k pindex pte : Nat)
    (hocc : (s.swap_slots k).is_free ≠ 1) (hinv : free_inv cfg s) :
    free_inv cfg (addslot k pindex pte s) := by
  intro i hi hfree
  by_cases hx : i = k
  · subst hx
    simp only [addslot, Function.update_same] at hfree
    exact absurd hfree hocc
  · simp only [addslot, Function.update_noteq hx] at hfree ⊢
    exact hinv i hi hfree

end PageSwap
